import Mathlib

/-!
# ChibiViewer: animation state machine and frame queue

A shallow embedding of `ChibiViewer - Copy (2).cpp`.  The process-wide globals of the
program (`g_gifs`, `g_frameQueue`, `g_appState`, ...) are the fields of one record `App`,
together with the parts of the window system the code reads and writes: the window
rectangle, the screen size and the two timers.  A function of the source that can run
into undefined behaviour becomes a function into `Option`, with `none` exactly there:
where `frameDelays[i]` is read out of range, and where the loader deletes the image of a
file it rejects a second time.  The other functions are total.  Values drawn from
`g_randomEngine` and the contents of an imported folder are arguments.

Numbers: frame counts, delays (`UINT`) and indices (`size_t`) are natural numbers; the
one product that can wrap, `n * 10` in `LoadGifFrameInfo`, is taken modulo `2 ^ 32`.
Window coordinates (`int`) are integers.  File names are lists of UTF-16 code units.
-/

namespace ChibiViewer

/-! ## Constants -/

def MIN_STATE_DURATION : Nat := 5000
def MAX_STATE_DURATION : Nat := 20000
def ANIMATION_INTERVAL : Nat := 50
def FRAME_BUFFER_SIZE : Nat := 3
def MIN_FRAME_DELAY : Nat := 16

/-! ## Data model -/

/-- GIF categories (`enum GifType`). -/
inductive GifType where
  | MOVE | WAIT | SIT | PICK | MISC
  deriving DecidableEq, Repr

/-- Application modes (`enum AppMode`). -/
inductive AppMode where
  | AUTOMATIC | MANUAL
  deriving DecidableEq, Repr

/-- Application states (`enum AppState`). -/
inductive AppState where
  | STATE_MOVE | STATE_WAIT | STATE_SIT | STATE_PICK | STATE_MISC
  deriving DecidableEq, Repr

/-- A `Gdiplus::Image` object: its identity (the address the pointers hold) and the
values `GetWidth()` and `GetHeight()` return. -/
structure Image where
  handle : Nat
  width : Int
  height : Int
  deriving DecidableEq, Repr

/-- The fields of `struct GifAnimation` the engine reads; `image = none` is `nullptr`. -/
structure GifAnimation where
  image : Option Image
  frameCount : Nat
  frameDelays : List Nat
  deriving DecidableEq, Repr

/-- The record `struct GifInfo`; `filePath` is kept as the UTF-16 code units. -/
structure GifInfo where
  filePath : List Nat
  type : GifType
  animation : GifAnimation
  flipped : Bool
  deriving DecidableEq, Repr

/-- The record `struct FrameInfo`: one entry of the frame queue. -/
structure FrameInfo where
  image : Option Image
  frameIndex : Nat
  delay : Nat
  flipped : Bool
  deriving DecidableEq, Repr

/-- The globals of the program and the window-system state they interact with.
`stateTimer` and `animTimer` hold the delay the timers `TIMER_ID` and
`ANIMATION_TIMER_ID` are armed with (`none` when killed or never set). -/
structure App where
  g_gifs : List GifInfo
  g_currentGifIndex : Nat
  g_appMode : AppMode
  g_appState : AppState
  g_prevState : AppState
  g_isPickMode : Bool
  g_moveDirectionRight : Bool
  g_menuVisible : Bool
  g_miscGifIndex : Nat
  g_hasGifs : Bool
  g_frameQueue : List FrameInfo
  g_currentFrameIndex : Nat
  windowLeft : Int
  windowTop : Int
  windowWidth : Int
  windowHeight : Int
  screenWidth : Int
  screenHeight : Int
  stateTimer : Option Nat
  animTimer : Option Nat
  deriving DecidableEq, Repr

/-- The globals as initialised at program start, with the window `WinMain` creates
(`100, 100, 200, 200`) on a screen of the given size, before the first timer is armed. -/
def App.initial (screenWidth screenHeight : Int) : App :=
  { g_gifs := []
    g_currentGifIndex := 0
    g_appMode := AppMode.AUTOMATIC
    g_appState := AppState.STATE_WAIT
    g_prevState := AppState.STATE_WAIT
    g_isPickMode := false
    g_moveDirectionRight := true
    g_menuVisible := false
    g_miscGifIndex := 0
    g_hasGifs := false
    g_frameQueue := []
    g_currentFrameIndex := 0
    windowLeft := 100
    windowTop := 100
    windowWidth := 200
    windowHeight := 200
    screenWidth := screenWidth
    screenHeight := screenHeight
    stateTimer := none
    animTimer := none }

/-! ## Frame queue builder -/

/-- The inner loop of `QueueFramesFromGif`, `for (UINT i = ...; i < frameCount; i++)`,
with `fuel = frameCount - i` iterations left: each iteration reads `frameDelays[i]`
(`none` when out of range) and pushes one entry at the back of the queue. -/
def queueFramePass (gif : GifInfo) : Nat → Nat → List FrameInfo → Option (List FrameInfo)
  | 0, _, q => some q
  | fuel + 1, i, q =>
    match gif.animation.frameDelays[i]? with
    | none => none
    | some d =>
      queueFramePass gif fuel (i + 1)
        (q ++ [{ image := gif.animation.image
                 frameIndex := i
                 delay := max d MIN_FRAME_DELAY
                 flipped := gif.flipped }])

/-- The outer loop of `QueueFramesFromGif`, `for (int bufferPass ...)`, with `passes`
iterations left. -/
def queueBufferPasses (gif : GifInfo) : Nat → List FrameInfo → Option (List FrameInfo)
  | 0, q => some q
  | passes + 1, q =>
    match queueFramePass gif gif.animation.frameCount 0 q with
    | none => none
    | some q1 => queueBufferPasses gif passes q1

/-- The function `QueueFramesFromGif(gifIndex)`. -/
def QueueFramesFromGif (gifIndex : Nat) (s : App) : Option App :=
  match s.g_gifs[gifIndex]? with
  | none => some s
  | some gif =>
    match queueBufferPasses gif FRAME_BUFFER_SIZE [] with
    | none => none
    | some q => some { s with g_frameQueue := q, g_currentFrameIndex := 0 }

/-! ## Category lookup -/

/-- The lookup loop `for (i ...) if (g_gifs[i].type == targetType) { newGifIndex = i;
foundGif = true; break; }`: the index of the first asset of the category, `none` when
`foundGif` stays false. -/
def firstOfType (t : GifType) : List GifInfo → Option Nat
  | [] => none
  | g :: rest => if g.type = t then some 0 else (firstOfType t rest).map (· + 1)

/-- The counting loop `if (g_gifs[i].type == MISC) miscCount++`, for any category. -/
def countOfType (t : GifType) : List GifInfo → Nat
  | [] => 0
  | g :: rest => if g.type = t then countOfType t rest + 1 else countOfType t rest

/-- The `switch` that maps a state to the category looked up for it; its `default`
branch is `MISC`. -/
def targetTypeOf : AppState → GifType
  | AppState.STATE_MOVE => GifType.MOVE
  | AppState.STATE_WAIT => GifType.WAIT
  | AppState.STATE_SIT => GifType.SIT
  | _ => GifType.MISC

/-- The lookup of `SwitchToNextGif` and `UpdateAppState`: `PICK` for `STATE_PICK`,
otherwise the category `targetTypeOf` gives. -/
def lookupCategory (st : AppState) : GifType :=
  if st = AppState.STATE_PICK then GifType.PICK else targetTypeOf st

/-- The assignment loop `if (g_gifs[i].type == MOVE) g_gifs[i].flipped = v`. -/
def setFlipped (t : GifType) (v : Bool) (gifs : List GifInfo) : List GifInfo :=
  gifs.map (fun g => if g.type = t then { g with flipped := v } else g)

/-! ## Window helpers -/

/-- The function `ResizeWindowToGif(hwnd, gif)`: `SetWindowPos` keeps the position and
sets the size to the image's; nothing happens for `nullptr`. -/
def ResizeWindowToGif (gif : Option Image) (s : App) : App :=
  match gif with
  | none => s
  | some img => { s with windowWidth := img.width, windowHeight := img.height }

/-- The statement `if (!g_frameQueue.empty()) SetTimer(hwnd, ANIMATION_TIMER_ID,
g_frameQueue[0].delay, NULL)`. -/
def armAnimationTimer (s : App) : App :=
  match s.g_frameQueue with
  | [] => s
  | f :: _ => { s with animTimer := some f.delay }

/-- The function `StartStateTimer()`; `duration` is the value drawn from
`durationDist(MIN_STATE_DURATION, MAX_STATE_DURATION)`. -/
def StartStateTimer (duration : Nat) (s : App) : Option App :=
  let s1 :=
    { s with stateTimer := some (if s.g_appState = AppState.STATE_MOVE then 50 else duration)
             animTimer := none }
  if s1.g_hasGifs = true ∧ s1.g_currentGifIndex < s1.g_gifs.length then
    match s1.g_gifs[s1.g_currentGifIndex]? with
    | none => none
    | some gif =>
      match gif.animation.frameDelays[0]? with
      | none => none
      | some d => some { s1 with animTimer := some (max d MIN_FRAME_DELAY) }
  else some s1

/-- The function `MoveWindow()`. -/
def MoveWindow (s : App) : App :=
  if s.g_appState ≠ AppState.STATE_MOVE then s
  else
    let windowWidth := s.windowWidth
    let s1 :=
      if s.g_moveDirectionRight = true then
        let newX := s.windowLeft + 10
        if newX + windowWidth > s.screenWidth then
          { s with g_moveDirectionRight := false
                   g_gifs := setFlipped GifType.MOVE true s.g_gifs
                   windowLeft := newX }
        else { s with windowLeft := newX }
      else
        let newX := s.windowLeft - 10
        if newX < 0 then
          { s with g_moveDirectionRight := true
                   g_gifs := setFlipped GifType.MOVE false s.g_gifs
                   windowLeft := newX }
        else { s with windowLeft := newX }
    if s1.g_appState = AppState.STATE_MOVE ∧ s1.g_isPickMode = false then
      { s1 with stateTimer := some 50 }
    else s1

/-! ## Mood state machine -/

/-- The block "Find the appropriate GIF for the new state ... Queue frames from the new
GIF ... else revert to previous state", which `SwitchToNextGif` (lines 639-688) and
`UpdateAppState` (lines 751-800) share word for word. -/
def queueGifForState (prevState : AppState) (s : App) : Option App :=
  match firstOfType (lookupCategory s.g_appState) s.g_gifs with
  | some newGifIndex =>
    match QueueFramesFromGif newGifIndex { s with g_frameQueue := [], g_currentFrameIndex := 0 } with
    | none => none
    | some s1 =>
      some (armAnimationTimer
        (ResizeWindowToGif (s1.g_gifs[newGifIndex]?.bind (fun g => g.animation.image)) s1))
  | none => some { s with g_appState := prevState }

/-- The first part of `SwitchToNextGif` (lines 613-637): the step of the manual cycle
`MOVE -> WAIT -> SIT -> MISC`, before any asset is looked up. -/
def advanceManualState (s : App) : App :=
  if s.g_appState = AppState.STATE_MOVE then { s with g_appState := AppState.STATE_WAIT }
  else if s.g_appState = AppState.STATE_WAIT then { s with g_appState := AppState.STATE_SIT }
  else if s.g_appState = AppState.STATE_SIT then
    { s with g_appState := AppState.STATE_MISC, g_miscGifIndex := 0 }
  else
    let miscCount := countOfType GifType.MISC s.g_gifs
    if miscCount > 1 then { s with g_miscGifIndex := (s.g_miscGifIndex + 1) % miscCount }
    else { s with g_appState := AppState.STATE_MOVE }

/-- The function `SwitchToNextGif()`. -/
def SwitchToNextGif (s : App) : Option App :=
  if s.g_gifs = [] then some s
  else
    let prevState := s.g_appState
    queueGifForState prevState (advanceManualState s)

/-- The values one automatic tick takes from `g_randomEngine`: `stateDist(0, 3)`,
`dirDist(0, 1)`, `miscDist(0, miscCount - 1)` and `durationDist`. -/
structure Draws where
  nextState : Nat
  dir : Nat
  misc : Nat
  duration : Nat
  deriving DecidableEq, Repr

/-- The `switch (nextState)` of `UpdateAppState` (lines 707-749), before any asset is
looked up. -/
def applyDrawnState (r : Draws) (s : App) : App :=
  match r.nextState with
  | 0 =>
    let right := decide (r.dir = 1)
    MoveWindow { s with g_appState := AppState.STATE_MOVE
                        g_moveDirectionRight := right
                        g_gifs := setFlipped GifType.MOVE (!right) s.g_gifs }
  | 1 => { s with g_appState := AppState.STATE_WAIT }
  | 2 => { s with g_appState := AppState.STATE_SIT }
  | 3 =>
    let miscCount := countOfType GifType.MISC s.g_gifs
    if miscCount > 0 then { s with g_appState := AppState.STATE_MISC, g_miscGifIndex := r.misc }
    else { s with g_appState := AppState.STATE_MISC }
  | _ => s

/-- The function `UpdateAppState()`. -/
def UpdateAppState (r : Draws) (s : App) : Option App :=
  if s.g_gifs = [] then some s
  else
    let prevState := s.g_appState
    match queueGifForState prevState (applyDrawnState r s) with
    | none => none
    | some s2 => StartStateTimer r.duration s2

/-! ## Filename classification -/

/-- The C function `::tolower` on one code unit of a `std::wstring` ("C" locale): the
letters `A`..`Z` (65..90) move to `a`..`z`, every other value is returned as it is. -/
def tolower (c : Nat) : Nat :=
  if 65 ≤ c ∧ c ≤ 90 then c + 32 else c

/-- Whether `pat` starts the text `s`. -/
def startsWith : List Nat → List Nat → Bool
  | [], _ => true
  | _ :: _, [] => false
  | p :: ps, c :: cs => p == c && startsWith ps cs

/-- The test `s.find(pat) != std::wstring::npos`: the search tries every start position
from the left. -/
def wfind (pat : List Nat) : List Nat → Bool
  | [] => startsWith pat []
  | c :: cs => startsWith pat (c :: cs) || wfind pat cs

/-- The literal `L"move"`. -/
def kwMove : List Nat := [109, 111, 118, 101]
/-- The literal `L"wait"`. -/
def kwWait : List Nat := [119, 97, 105, 116]
/-- The literal `L"sit"`. -/
def kwSit : List Nat := [115, 105, 116]
/-- The literal `L"pick"`. -/
def kwPick : List Nat := [112, 105, 99, 107]

/-- The function `GetGifTypeFromFilename(filename)`. -/
def GetGifTypeFromFilename (filename : List Nat) : GifType :=
  let lowerFilename := filename.map tolower
  if wfind kwMove lowerFilename then GifType.MOVE
  else if wfind kwWait lowerFilename then GifType.WAIT
  else if wfind kwSit lowerFilename then GifType.SIT
  else if wfind kwPick lowerFilename then GifType.PICK
  else GifType.MISC

/-- The code units of a text, for writing file names in examples. -/
def wstr (t : String) : List Nat := t.toList.map Char.toNat

/-! ## Import -/

/-- What GDI+ answers about the image `Gdiplus::Image::FromFile` made of one file:
`GetFrameDimensionsCount()`, the status of `GetFrameDimensionsList`, `GetFrameCount`
of the first dimension, `GetPropertyItemSize(PropertyTagFrameDelay)` and the `UINT`
array the property item's `value` points to. -/
structure DecodedImage where
  image : Image
  frameDimensionsCount : Nat
  frameDimensionsListStatus : Nat
  frameCount : Nat
  frameDelaySize : Nat
  frameDelayArray : Nat → Nat

/-- One match of `FindFirstFileW`/`FindNextFileW` for `folderPath\*.gif`. -/
structure DirEntry where
  cFileName : List Nat
  isDirectory : Bool
  decoded : DecodedImage

/-- The function `LoadGifFrameInfo(image)`; the product `n * 10` is a `UINT`. -/
def LoadGifFrameInfo (image : DecodedImage) : List Nat :=
  if image.frameDimensionsCount ≠ 1 then []
  else if image.frameDimensionsListStatus ≠ 0 then []
  else if image.frameDelaySize = 0 then []
  else (List.range image.frameCount).map (fun i => image.frameDelayArray i * 10 % 2 ^ 32)

/-- The `do { ... } while (FindNextFileW(...))` loop of `LoadGifsFromFolder` over the
matches still to visit; `gifs` is `g_gifs` so far.  For a file without frame delays the
source runs `delete gifInfo.animation.image; continue;` without clearing the pointer,
and leaving the scope of `gifInfo` runs `~GifAnimation`, which deletes the same image
again: undefined behaviour, `none` here.  A directory is skipped before any image is
made; an accepted file is moved into `g_gifs`, which clears the pointer of the local. -/
def loadEntries (folderPath : List Nat) : List DirEntry → List GifInfo → Option (List GifInfo)
  | [], gifs => some gifs
  | e :: rest, gifs =>
    if e.isDirectory = false then
      let frameDelays := LoadGifFrameInfo e.decoded
      if frameDelays = [] then none
      else
        loadEntries folderPath rest
          (gifs ++ [{ filePath := folderPath ++ [92] ++ e.cFileName
                      type := GetGifTypeFromFilename e.cFileName
                      animation := { image := some e.decoded.image
                                     frameCount := e.decoded.frameCount
                                     frameDelays := frameDelays }
                      flipped := false }])
    else loadEntries folderPath rest gifs

/-- The function `LoadGifsFromFolder(folderPath)`, with the matches the directory search
yields (`[]` when `FindFirstFileW` returns `INVALID_HANDLE_VALUE`); the result is the
new state and the returned `bool`. -/
def LoadGifsFromFolder (folderPath : List Nat) (entries : List DirEntry) (s : App) :
    Option (App × Bool) :=
  match entries with
  | [] => some (s, false)
  | _ :: _ =>
    match loadEntries folderPath entries s.g_gifs with
    | none => none
    | some gifs =>
      let s1 := { s with g_gifs := gifs, g_hasGifs := !gifs.isEmpty }
      match s1.g_gifs with
      | [] => some (s1, s1.g_hasGifs)
      | g0 :: _ =>
        if g0.animation.image ≠ none then
          match QueueFramesFromGif 0 { s1 with g_frameQueue := [], g_currentFrameIndex := 0 } with
          | none => none
          | some s2 =>
            some (armAnimationTimer (ResizeWindowToGif g0.animation.image s2), s1.g_hasGifs)
        else some (s1, s1.g_hasGifs)

/-- The function `CleanupGifs()`. -/
def CleanupGifs (s : App) : App :=
  { s with stateTimer := none
           animTimer := none
           g_frameQueue := []
           g_currentFrameIndex := 0
           g_gifs := []
           g_hasGifs := false }

/-- The function `ToggleMenu()`. -/
def ToggleMenu (s : App) : App :=
  { s with g_menuVisible := !s.g_menuVisible }

/-! ## Window procedure -/

def TIMER_ID : Nat := 1
def ANIMATION_TIMER_ID : Nat := 2
/-- The key code `'M'`. -/
def KEY_M : Nat := 77
/-- The key code `'A'`. -/
def KEY_A : Nat := 65
def VK_SPACE : Nat := 32

/-- The messages `WindowProc` reacts to, with what each handler obtains from outside the
program: the values drawn from `g_randomEngine`, the mouse position in client
coordinates, and for the import button the folder the dialog returned (`none` when it
was cancelled) with the matches of the directory search. -/
inductive Msg where
  | WM_TIMER (wParam : Nat) (r : Draws)
  | WM_KEYDOWN (wParam : Nat) (duration : Nat)
  | WM_MOUSEMOVE (x y : Int)
  | WM_LBUTTONDOWN
  | WM_LBUTTONUP (duration : Nat)
  | WM_COMMAND (folder : Option (List Nat × List DirEntry)) (duration : Nat)

/-- The clamp of the drag handler along one axis:
`std::max(0, std::min(p - size / 2, screen - size))`, `/` being C++ `int` division. -/
def dragClamp (p size screen : Int) : Int :=
  max 0 (min (p - Int.tdiv size 2) (screen - size))

/-- The `WM_TIMER` case of `WindowProc`. -/
def onTimer (wParam : Nat) (r : Draws) (s : App) : Option App :=
  if wParam = TIMER_ID ∧ s.g_appMode = AppMode.AUTOMATIC ∧ s.g_isPickMode = false then
    UpdateAppState r s
  else if wParam = ANIMATION_TIMER_ID ∧ s.g_frameQueue ≠ [] then
    let next := (s.g_currentFrameIndex + 1) % s.g_frameQueue.length
    match s.g_frameQueue[next]? with
    | none => none
    | some f =>
      some { s with g_currentFrameIndex := next
                    animTimer := some (max f.delay MIN_FRAME_DELAY) }
  else some s

/-- The `WM_KEYDOWN` case of `WindowProc`. -/
def onKeyDown (wParam : Nat) (duration : Nat) (s : App) : Option App :=
  if wParam = KEY_M then some (ToggleMenu s)
  else if wParam = KEY_A then
    let s1 :=
      { s with g_appMode :=
                 if s.g_appMode = AppMode.AUTOMATIC then AppMode.MANUAL else AppMode.AUTOMATIC }
    if s1.g_appMode = AppMode.AUTOMATIC then StartStateTimer duration s1
    else some { s1 with stateTimer := none }
  else if wParam = VK_SPACE then
    if s.g_appMode = AppMode.MANUAL ∧ s.g_gifs ≠ [] then SwitchToNextGif s else some s
  else some s

/-- The `WM_MOUSEMOVE` case of `WindowProc`; `ClientToScreen` adds the window origin
(the window is a borderless `WS_POPUP`). -/
def onMouseMove (x y : Int) (s : App) : App :=
  if s.g_isPickMode = true then
    { s with windowLeft := dragClamp (x + s.windowLeft) s.windowWidth s.screenWidth
             windowTop := dragClamp (y + s.windowTop) s.windowHeight s.screenHeight }
  else s

/-- The `WM_LBUTTONDOWN` case of `WindowProc`. -/
def onLButtonDown (s : App) : Option App :=
  if s.g_gifs ≠ [] then
    let s1 := { s with g_prevState := s.g_appState
                       g_isPickMode := true
                       g_appState := AppState.STATE_PICK }
    match firstOfType GifType.PICK s1.g_gifs with
    | some i =>
      match QueueFramesFromGif i { s1 with g_frameQueue := [], g_currentFrameIndex := 0 } with
      | none => none
      | some s2 => some (armAnimationTimer s2)
    | none => some s1
  else some s

/-- The `WM_LBUTTONUP` case of `WindowProc`. -/
def onLButtonUp (duration : Nat) (s : App) : Option App :=
  if s.g_isPickMode = true then
    let s1 := { s with g_isPickMode := false, g_appState := s.g_prevState }
    let queued : Option App :=
      match firstOfType (targetTypeOf s1.g_prevState) s1.g_gifs with
      | some newGifIndex =>
        match QueueFramesFromGif newGifIndex
            { s1 with g_frameQueue := [], g_currentFrameIndex := 0 } with
        | none => none
        | some s2 => some (armAnimationTimer s2)
      | none => some s1
    match queued with
    | none => none
    | some s3 =>
      if s3.g_appMode = AppMode.AUTOMATIC then StartStateTimer duration s3 else some s3
  else some s

/-- The import-button branch of the `WM_COMMAND` case of `WindowProc`. -/
def onImport (folder : Option (List Nat × List DirEntry)) (duration : Nat) (s : App) :
    Option App :=
  match folder with
  | none => some (ToggleMenu s)
  | some (folderPath, entries) =>
    match LoadGifsFromFolder folderPath entries (CleanupGifs s) with
    | none => none
    | some (s1, true) =>
      let s2 := { s1 with g_currentGifIndex := 0, g_appState := AppState.STATE_WAIT }
      if s2.g_appMode = AppMode.AUTOMATIC then (StartStateTimer duration s2).map ToggleMenu
      else some (ToggleMenu s2)
    | some (s1, false) => some (ToggleMenu s1)

/-- The function `WindowProc`, on the messages that reach the engine. -/
def WindowProc (m : Msg) (s : App) : Option App :=
  match m with
  | Msg.WM_TIMER wParam r => onTimer wParam r s
  | Msg.WM_KEYDOWN wParam duration => onKeyDown wParam duration s
  | Msg.WM_MOUSEMOVE x y => some (onMouseMove x y s)
  | Msg.WM_LBUTTONDOWN => onLButtonDown s
  | Msg.WM_LBUTTONUP duration => onLButtonUp duration s
  | Msg.WM_COMMAND folder duration => onImport folder duration s

/-- The message loop: the messages of the list are dispatched in order. -/
def run : List Msg → App → Option App
  | [], s => some s
  | m :: ms, s =>
    match WindowProc m s with
    | none => none
    | some s1 => run ms s1

/-! ## Well-formed catalogs and closed forms -/

/-- Every asset has a delay for each of its frames and at least one delay: what
`LoadGifsFromFolder` establishes for every asset it stores, and what keeps the reads
`frameDelays[i]` and `frameDelays[0]` in range. -/
abbrev WellFormed (gifs : List GifInfo) : Prop :=
  ∀ g ∈ gifs, g.animation.frameCount ≤ g.animation.frameDelays.length ∧
    g.animation.frameDelays ≠ []

/-- The queue entry for frame `i` of an asset. -/
def frameAt (gif : GifInfo) (i : Nat) : FrameInfo :=
  { image := gif.animation.image
    frameIndex := i
    delay := max (gif.animation.frameDelays.getD i 0) MIN_FRAME_DELAY
    flipped := gif.flipped }

/-- The queue of an asset in closed form: position `p` shows frame `p mod frameCount`. -/
def expectedQueue (gif : GifInfo) : List FrameInfo :=
  (List.range (FRAME_BUFFER_SIZE * gif.animation.frameCount)).map
    (fun p => frameAt gif (p % gif.animation.frameCount))

/-- The cycle key pressed `n` times in a row: `n` calls of `SwitchToNextGif`. -/
def manualCycles : Nat → App → Option App
  | 0, s => some s
  | n + 1, s =>
    match SwitchToNextGif s with
    | none => none
    | some s1 => manualCycles n s1

/-- Two code units that are equal or the upper-case and lower-case form of one letter
`A`..`Z`. -/
def SameLetter (c d : Nat) : Prop :=
  c = d ∨ (65 ≤ c ∧ c ≤ 90 ∧ d = c + 32) ∨ (65 ≤ d ∧ d ≤ 90 ∧ c = d + 32)

/-- The text `pat` occurs in `t` as a run of consecutive code units. -/
def Occurs (pat t : List Nat) : Prop :=
  ∃ before after, t = before ++ pat ++ after

/-- The messages that are neither a press, nor a release, nor an import: timer ticks of
either timer, key presses (the cycle key among them) and mouse moves. -/
def Msg.isBetween : Msg → Bool
  | Msg.WM_TIMER _ _ => true
  | Msg.WM_KEYDOWN _ _ => true
  | Msg.WM_MOUSEMOVE _ _ => true
  | _ => false

/-- Every file of an imported folder yields frame delays (directories aside); true of a
message that is not the import of a folder. -/
def Msg.loads : Msg → Prop
  | Msg.WM_COMMAND (some (_, entries)) _ =>
    ∀ e ∈ entries, e.isDirectory = true ∨ LoadGifFrameInfo e.decoded ≠ []
  | _ => True

/-- Two catalogs hold the same assets in the same order and differ at most in the
`flipped` flags. -/
def SameAssets (a b : List GifInfo) : Prop :=
  a.map (fun g => (g.filePath, g.type, g.animation)) =
    b.map (fun g => (g.filePath, g.type, g.animation))

/-- The frame queue has just been rebuilt from the first catalog asset of category `t`:
it is that asset's queue and the cursor is 0. -/
def FedByFirst (t : GifType) (s : App) : Prop :=
  ∃ i g, firstOfType t s.g_gifs = some i ∧ s.g_gifs[i]? = some g ∧
    s.g_frameQueue = expectedQueue g ∧ s.g_currentFrameIndex = 0

/-- The playback invariant: when the frame queue is not empty, the cursor is a valid
index into it and all its entries show the image of one asset of the catalog. -/
def QueueInv (s : App) : Prop :=
  s.g_frameQueue ≠ [] →
    s.g_currentFrameIndex < s.g_frameQueue.length ∧
    ∃ g ∈ s.g_gifs, ∀ f ∈ s.g_frameQueue, f.image = g.animation.image

/-! ## Example data -/

/-- An asset of the given category with image `handle` and the given frame delays. -/
def exGif (t : GifType) (handle : Nat) (delays : List Nat) : GifInfo :=
  { filePath := []
    type := t
    animation := { image := some { handle := handle, width := 120, height := 90 }
                   frameCount := delays.length
                   frameDelays := delays }
    flipped := false }

/-- A state holding the given catalog, otherwise as at program start on a 1920 x 1080
screen, with `g_hasGifs` set as the loader sets it. -/
def exApp (gifs : List GifInfo) : App :=
  { App.initial 1920 1080 with g_gifs := gifs, g_hasGifs := !gifs.isEmpty }

/-- Random values for one automatic tick that draw `STATE_WAIT`. -/
def exDraws : Draws := { nextState := 1, dir := 0, misc := 0, duration := 5000 }

/-- A state whose queue was just built from a one-frame asset. -/
def exPlaying : App :=
  { exApp [exGif GifType.WAIT 1 [100]] with
    g_frameQueue := expectedQueue (exGif GifType.WAIT 1 [100]) }

/-- A catalog with exactly one movement, one idle-wait and one sit asset; the state is
`STATE_WAIT` as at program start. -/
def exMoveWaitSit : App :=
  exApp [exGif GifType.MOVE 1 [100, 100], exGif GifType.WAIT 2 [100], exGif GifType.SIT 3 [100]]

/-- Random values for one automatic tick that draw `STATE_MISC`. -/
def exDrawsMisc : Draws := { nextState := 3, dir := 0, misc := 0, duration := 7000 }

/-- A catalog without pick-up asset whose first asset is a sit animation. -/
def exSitWait : App :=
  { exApp [exGif GifType.SIT 1 [100], exGif GifType.WAIT 2 [100]] with
    g_appMode := AppMode.MANUAL }

/-- A file the loader accepts: one frame dimension, the given number of frames, every
stored delay equal to 10 (hundredths of a second). -/
def exFile (name : String) (handle frames : Nat) : DirEntry :=
  { cFileName := wstr name
    isDirectory := false
    decoded := { image := { handle := handle, width := 120, height := 90 }
                 frameDimensionsCount := 1
                 frameDimensionsListStatus := 0
                 frameCount := frames
                 frameDelaySize := 4 * frames
                 frameDelayArray := fun _ => 10 } }

/-- The import of a folder holding `sit.gif` and `wait.gif`, in this order. -/
def exImportSitWait : Msg :=
  Msg.WM_COMMAND (some (wstr "C:\\pets", [exFile "sit.gif" 1 1, exFile "wait.gif" 2 1])) 5000

/-- Random values for one automatic tick that draw `STATE_MOVE`, heading left. -/
def exDrawsLeft : Draws := { nextState := 0, dir := 0, misc := 0, duration := 5000 }

/-- Random values for one automatic tick that draw `STATE_MOVE`, heading right. -/
def exDrawsRight : Draws := { nextState := 0, dir := 1, misc := 0, duration := 5000 }

/-- The import of a folder holding `move.gif`, followed by twelve automatic ticks that
all draw `STATE_MOVE` heading left: the window walks from x = 100 to the left edge,
turns there at x = -10, and the twelfth tick takes it to x = -20. -/
def exWalkLeft : List Msg :=
  Msg.WM_COMMAND (some (wstr "C:\\pets", [exFile "move.gif" 1 2])) 5000 ::
    List.replicate 12 (Msg.WM_TIMER TIMER_ID exDrawsLeft)

/-- A state in `STATE_MOVE` heading right whose window touches the right screen edge,
the movement asset oriented as `UpdateAppState` sets it for that direction. -/
def exAtRightEdge : App :=
  { exApp [exGif GifType.MOVE 1 [100, 100], exGif GifType.SIT 2 [100]] with
    g_appState := AppState.STATE_MOVE
    g_moveDirectionRight := true
    windowLeft := 1795
    windowWidth := 120 }

/-- A folder whose only match is a file without frame-delay property
(`GetPropertyItemSize(PropertyTagFrameDelay)` is 0), such as a still image. -/
def exStillFolder : List DirEntry :=
  [ { cFileName := wstr "wait.gif", isDirectory := false
      decoded := { image := { handle := 7, width := 10, height := 10 }
                   frameDimensionsCount := 1, frameDimensionsListStatus := 0
                   frameCount := 1, frameDelaySize := 0, frameDelayArray := fun _ => 0 } } ]

/-- A folder in which nothing loads: a directory whose name ends in `.gif`, and a file
with two frame dimensions. -/
def exBadFolder : List DirEntry :=
  [ { (exFile "move.gif" 8 3) with isDirectory := true },
    { cFileName := wstr "sit.gif", isDirectory := false
      decoded := { image := { handle := 9, width := 10, height := 10 }
                   frameDimensionsCount := 2, frameDimensionsListStatus := 0
                   frameCount := 4, frameDelaySize := 16, frameDelayArray := fun _ => 5 } } ]

/-- A folder whose only match is a directory named `move.gif`. -/
def exDirectoryFolder : List DirEntry :=
  [ { (exFile "move.gif" 8 3) with isDirectory := true } ]

/-- A catalog with a pick-up asset, two sit assets, one misc, one idle-wait and one
movement asset, in `STATE_MOVE`. -/
def exAllKinds : App :=
  { exApp [exGif GifType.PICK 1 [30], exGif GifType.SIT 2 [100], exGif GifType.MISC 3 [50, 60],
           exGif GifType.WAIT 4 [100], exGif GifType.SIT 5 [70], exGif GifType.MOVE 6 [20, 20]] with
    g_appState := AppState.STATE_MOVE }

/-- A file the loader accepts whose frames all store the delay `raw` (hundredths of a
second). -/
def exFileDelay (name : String) (handle frames raw : Nat) : DirEntry :=
  { exFile name handle frames with
    decoded := { (exFile name handle frames).decoded with frameDelayArray := fun _ => raw } }

/-- Random values for one automatic tick that draw `STATE_SIT`. -/
def exDrawsSit : Draws := { nextState := 2, dir := 0, misc := 0, duration := 9000 }

/-- The import of `wait.gif` (100 ms per frame) and `sit.gif` (250 ms per frame),
followed by an automatic tick that draws `STATE_SIT`. -/
def exTickToSit : List Msg :=
  [Msg.WM_COMMAND (some (wstr "C:\\pets",
      [exFileDelay "wait.gif" 1 2 10, exFileDelay "sit.gif" 2 2 25])) 5000,
   Msg.WM_TIMER TIMER_ID exDrawsSit]

/-- The import of `wait.gif`, `sit.gif` and the two misc files `a.gif` and `b.gif`,
the switch to manual mode, and two manual cycle requests: `STATE_WAIT` to `STATE_SIT`
to `STATE_MISC`. -/
def exCycleToMisc : List Msg :=
  [Msg.WM_COMMAND (some (wstr "C:\\pets",
      [exFile "wait.gif" 1 1, exFile "sit.gif" 2 1, exFile "a.gif" 3 1, exFile "b.gif" 4 1])) 5000,
   Msg.WM_KEYDOWN KEY_A 0,
   Msg.WM_KEYDOWN VK_SPACE 0,
   Msg.WM_KEYDOWN VK_SPACE 0]

/-- The image handles of the queue entries, in order. -/
def queueHandles (s : App) : List (Option Nat) :=
  s.g_frameQueue.map (fun f => f.image.map Image.handle)

/-- The import of `wait.gif` alone, a catalog without movement asset. -/
def exImportWait : Msg :=
  Msg.WM_COMMAND (some (wstr "C:\\pets", [exFile "wait.gif" 1 1])) 5000

/-! ## The frame queue builder in closed form -/

theorem queueFramePass_eq (gif : GifInfo) :
    ∀ (fuel i : Nat) (q : List FrameInfo), i + fuel ≤ gif.animation.frameDelays.length →
      queueFramePass gif fuel i q = some (q ++ (List.range' i fuel).map (frameAt gif)) := by
  intro fuel
  induction fuel with
  | zero => intro i q _; simp [queueFramePass]
  | succ k ih =>
    intro i q h
    have hi : i < gif.animation.frameDelays.length := by omega
    have hget : gif.animation.frameDelays[i]? = some (gif.animation.frameDelays[i]) :=
      List.getElem?_eq_getElem hi
    rw [queueFramePass, hget]
    simp only []
    rw [ih (i + 1) _ (by omega)]
    simp [List.range'_succ, frameAt, hget]

theorem map_mod_range_add (gif : GifInfo) (n k : Nat) :
    (List.range n).map (frameAt gif) ++ (List.range (k * n)).map (fun p => frameAt gif (p % n))
      = (List.range ((k + 1) * n)).map (fun p => frameAt gif (p % n)) := by
  have hsplit : (k + 1) * n = n + k * n := by ring
  rw [hsplit, List.range_add, List.map_append, List.map_map]
  congr 1
  · apply List.map_congr_left
    intro p hp
    rw [List.mem_range] at hp
    simp [Nat.mod_eq_of_lt hp]
  · apply List.map_congr_left
    intro p _
    simp

theorem queueBufferPasses_eq (gif : GifInfo)
    (h : gif.animation.frameCount ≤ gif.animation.frameDelays.length) :
    ∀ (passes : Nat) (q : List FrameInfo),
      queueBufferPasses gif passes q =
        some (q ++ (List.range (passes * gif.animation.frameCount)).map
          (fun p => frameAt gif (p % gif.animation.frameCount))) := by
  intro passes
  induction passes with
  | zero => intro q; simp [queueBufferPasses]
  | succ k ih =>
    intro q
    rw [queueBufferPasses, queueFramePass_eq gif _ 0 q (by omega)]
    simp only []
    rw [ih, List.append_assoc, ← List.range_eq_range', map_mod_range_add]

theorem QueueFramesFromGif_eq (s : App) (g : Nat) (gif : GifInfo)
    (hg : s.g_gifs[g]? = some gif)
    (h : gif.animation.frameCount ≤ gif.animation.frameDelays.length) :
    QueueFramesFromGif g s =
      some { s with g_frameQueue := expectedQueue gif, g_currentFrameIndex := 0 } := by
  simp [QueueFramesFromGif, hg, queueBufferPasses_eq gif h, expectedQueue]

theorem expectedQueue_length (gif : GifInfo) :
    (expectedQueue gif).length = FRAME_BUFFER_SIZE * gif.animation.frameCount := by
  simp [expectedQueue]

theorem expectedQueue_delay (gif : GifInfo) :
    ∀ f ∈ expectedQueue gif, MIN_FRAME_DELAY ≤ f.delay := by
  intro f hf
  simp only [expectedQueue, List.mem_map] at hf
  obtain ⟨p, _, rfl⟩ := hf
  simp [frameAt]

/-- C1: for every catalog and every valid asset index `g` whose asset has `frameCount`
`n` and at least `n` frame delays, `QueueFramesFromGif g` returns, the frame queue then
has exactly `FRAME_BUFFER_SIZE * n = 3 * n` entries and every entry's delay is at least
`MIN_FRAME_DELAY = 16`. -/
theorem queue_length_and_delay_floor (s : App) (g : Nat) (gif : GifInfo)
    (hg : s.g_gifs[g]? = some gif)
    (hn : gif.animation.frameCount ≤ gif.animation.frameDelays.length) :
    ∃ s1, QueueFramesFromGif g s = some s1 ∧
      s1.g_frameQueue.length = FRAME_BUFFER_SIZE * gif.animation.frameCount ∧
      s1.g_frameQueue.length = 3 * gif.animation.frameCount ∧
      (∀ f ∈ s1.g_frameQueue, MIN_FRAME_DELAY ≤ f.delay) ∧
      (∀ f ∈ s1.g_frameQueue, 16 ≤ f.delay) := by
  refine ⟨_, QueueFramesFromGif_eq s g gif hg hn, ?_, ?_, ?_, ?_⟩
  · exact expectedQueue_length gif
  · exact expectedQueue_length gif
  · exact expectedQueue_delay gif
  · exact expectedQueue_delay gif

/-- C1 at asset 1 of a two-asset catalog: three frames, delays 0, 40 and 7. -/
theorem queue_length_and_delay_floor_witness :
    ∃ s1, QueueFramesFromGif 1 (exApp [exGif GifType.WAIT 1 [100, 5], exGif GifType.SIT 2 [0, 40, 7]])
        = some s1 ∧
      s1.g_frameQueue.length = FRAME_BUFFER_SIZE * 3 ∧
      s1.g_frameQueue.length = 3 * 3 ∧
      (∀ f ∈ s1.g_frameQueue, MIN_FRAME_DELAY ≤ f.delay) ∧
      (∀ f ∈ s1.g_frameQueue, 16 ≤ f.delay) :=
  queue_length_and_delay_floor
    (exApp [exGif GifType.WAIT 1 [100, 5], exGif GifType.SIT 2 [0, 40, 7]]) 1
    (exGif GifType.SIT 2 [0, 40, 7]) rfl (by decide)

/-! ## Playback driver -/

theorem onTimer_animation (r : Draws) (s : App) (hq : s.g_frameQueue ≠ []) :
    ∃ f, s.g_frameQueue[(s.g_currentFrameIndex + 1) % s.g_frameQueue.length]? = some f ∧
      onTimer ANIMATION_TIMER_ID r s =
        some { s with g_currentFrameIndex := (s.g_currentFrameIndex + 1) % s.g_frameQueue.length
                      animTimer := some (max f.delay MIN_FRAME_DELAY) } := by
  have hpos : 0 < s.g_frameQueue.length := List.length_pos.mpr hq
  have hlt : (s.g_currentFrameIndex + 1) % s.g_frameQueue.length < s.g_frameQueue.length :=
    Nat.mod_lt _ hpos
  refine ⟨s.g_frameQueue[(s.g_currentFrameIndex + 1) % s.g_frameQueue.length],
    List.getElem?_eq_getElem hlt, ?_⟩
  simp [onTimer, ANIMATION_TIMER_ID, TIMER_ID, hq, List.getElem?_eq_getElem hlt]

theorem run_fine_ticks :
    ∀ (ms : List Msg) (s : App), s.g_frameQueue ≠ [] →
      (∀ m ∈ ms, ∃ r, m = Msg.WM_TIMER ANIMATION_TIMER_ID r) →
      ∃ s1, run ms s = some s1 ∧ s1.g_frameQueue = s.g_frameQueue ∧
        s1.g_currentFrameIndex % s.g_frameQueue.length
          = (s.g_currentFrameIndex + ms.length) % s.g_frameQueue.length ∧
        (ms ≠ [] → s1.g_currentFrameIndex < s.g_frameQueue.length) := by
  intro ms
  induction ms with
  | nil => intro s _ _; exact ⟨s, rfl, rfl, rfl, fun h => absurd rfl h⟩
  | cons m rest ih =>
    intro s hq hms
    obtain ⟨r, rfl⟩ := hms m (List.mem_cons_self _ _)
    obtain ⟨f, _, hstep⟩ := onTimer_animation r s hq
    have hrest : ∀ m ∈ rest, ∃ r, m = Msg.WM_TIMER ANIMATION_TIMER_ID r :=
      fun m hm => hms m (List.mem_cons_of_mem _ hm)
    have hpos : 0 < s.g_frameQueue.length := List.length_pos.mpr hq
    obtain ⟨s1, hrun, hqueue, hcur, hlt⟩ :=
      ih { s with g_currentFrameIndex := (s.g_currentFrameIndex + 1) % s.g_frameQueue.length
                  animTimer := some (max f.delay MIN_FRAME_DELAY) } hq hrest
    simp only [] at hrun hqueue hcur hlt
    refine ⟨s1, ?_, hqueue, ?_, ?_⟩
    · simp only [run, WindowProc, hstep]; exact hrun
    · rw [hcur, List.length_cons, Nat.add_mod, Nat.mod_mod, ← Nat.add_mod]
      congr 1; omega
    · intro _
      by_cases hr : rest = []
      · subst hr
        simp only [run, Option.some.injEq] at hrun
        subst hrun
        exact Nat.mod_lt _ hpos
      · exact hlt hr

/-- C2: for every non-empty frame queue of length `L` freshly built (cursor 0) and every
number `N`, `N` animation-timer ticks with no rebuild in between all return and leave
the cursor `g_currentFrameIndex` at `N mod L`, the queue being the same. -/
theorem cursor_after_fine_ticks (s : App) (ms : List Msg) (hq : s.g_frameQueue ≠ [])
    (h0 : s.g_currentFrameIndex = 0)
    (hms : ∀ m ∈ ms, ∃ r, m = Msg.WM_TIMER ANIMATION_TIMER_ID r) :
    ∃ s1, run ms s = some s1 ∧ s1.g_frameQueue = s.g_frameQueue ∧
      s1.g_currentFrameIndex = ms.length % s.g_frameQueue.length := by
  obtain ⟨s1, hrun, hqueue, hcur, hlt⟩ := run_fine_ticks ms s hq hms
  refine ⟨s1, hrun, hqueue, ?_⟩
  have hpos : 0 < s.g_frameQueue.length := List.length_pos.mpr hq
  by_cases hnil : ms = []
  · subst hnil
    simp only [run, Option.some.injEq] at hrun
    subst hrun
    simp [h0]
  · rw [h0, Nat.zero_add] at hcur
    rw [← hcur, Nat.mod_eq_of_lt (hlt hnil)]

/-- C2 for four ticks on a queue of length three. -/
theorem cursor_after_fine_ticks_witness :
    ∃ s1, run (List.replicate 4 (Msg.WM_TIMER ANIMATION_TIMER_ID exDraws)) exPlaying = some s1 ∧
      s1.g_frameQueue = exPlaying.g_frameQueue ∧ s1.g_currentFrameIndex = 4 % 3 :=
  cursor_after_fine_ticks exPlaying (List.replicate 4 (Msg.WM_TIMER ANIMATION_TIMER_ID exDraws))
    (by decide) rfl (fun m hm => ⟨exDraws, List.eq_of_mem_replicate hm⟩)

/-! ## Category lookup -/

theorem firstOfType_none_iff (t : GifType) (gifs : List GifInfo) :
    firstOfType t gifs = none ↔ ∀ g ∈ gifs, g.type ≠ t := by
  induction gifs with
  | nil => simp [firstOfType]
  | cons g rest ih =>
    by_cases h : g.type = t
    · simp [firstOfType, h]
    · simp [firstOfType, h, ih]

theorem firstOfType_some (t : GifType) :
    ∀ (gifs : List GifInfo) (i : Nat), firstOfType t gifs = some i →
      ∃ g, gifs[i]? = some g ∧ g.type = t ∧ ∀ j, j < i → ∀ g1, gifs[j]? = some g1 → g1.type ≠ t := by
  intro gifs
  induction gifs with
  | nil => intro i h; simp [firstOfType] at h
  | cons g rest ih =>
    intro i h
    by_cases hg : g.type = t
    · simp only [firstOfType, hg, if_true, Option.some.injEq] at h
      subst h
      exact ⟨g, by simp, hg, fun j hj => absurd hj (Nat.not_lt_zero j)⟩
    · simp only [firstOfType, hg, if_false, Option.map_eq_some'] at h
      obtain ⟨k, hk, rfl⟩ := h
      obtain ⟨g2, hg2, ht, hmin⟩ := ih k hk
      refine ⟨g2, by simpa using hg2, ht, ?_⟩
      intro j hj g1 hg1
      cases j with
      | zero =>
        simp only [List.getElem?_cons_zero, Option.some.injEq] at hg1
        subst hg1; exact hg
      | succ j1 =>
        simp only [List.getElem?_cons_succ] at hg1
        exact hmin j1 (by omega) g1 hg1

theorem countOfType_eq_zero_iff (t : GifType) (gifs : List GifInfo) :
    countOfType t gifs = 0 ↔ ∀ g ∈ gifs, g.type ≠ t := by
  induction gifs with
  | nil => simp [countOfType]
  | cons g rest ih =>
    by_cases h : g.type = t
    · simp [countOfType, h]
    · simp [countOfType, h, ih]

theorem type_flip (u : GifType) (v : Bool) (g : GifInfo) :
    (if g.type = u then { g with flipped := v } else g).type = g.type := by
  by_cases hu : g.type = u <;> simp [hu]

theorem animation_flip (u : GifType) (v : Bool) (g : GifInfo) :
    (if g.type = u then { g with flipped := v } else g).animation = g.animation := by
  by_cases hu : g.type = u <;> simp [hu]

theorem firstOfType_setFlipped (t u : GifType) (v : Bool) (gifs : List GifInfo) :
    firstOfType t (setFlipped u v gifs) = firstOfType t gifs := by
  induction gifs with
  | nil => rfl
  | cons g rest ih =>
    have ih1 : firstOfType t (List.map
        (fun g => if g.type = u then { g with flipped := v } else g) rest)
          = firstOfType t rest := ih
    simp only [setFlipped, List.map_cons, firstOfType, type_flip, ih1]

theorem countOfType_setFlipped (t u : GifType) (v : Bool) (gifs : List GifInfo) :
    countOfType t (setFlipped u v gifs) = countOfType t gifs := by
  induction gifs with
  | nil => rfl
  | cons g rest ih =>
    have ih1 : countOfType t (List.map
        (fun g => if g.type = u then { g with flipped := v } else g) rest)
          = countOfType t rest := ih
    simp only [setFlipped, List.map_cons, countOfType, type_flip, ih1]

theorem wellFormed_setFlipped (u : GifType) (v : Bool) (gifs : List GifInfo)
    (h : WellFormed gifs) : WellFormed (setFlipped u v gifs) := by
  intro g hg
  simp only [setFlipped, List.mem_map] at hg
  obtain ⟨g0, hg0, rfl⟩ := hg
  rw [animation_flip]
  exact h g0 hg0

theorem type_setFlipped (u : GifType) (v : Bool) (gifs : List GifInfo) (t : GifType) :
    (∃ g ∈ setFlipped u v gifs, g.type = t) ↔ ∃ g ∈ gifs, g.type = t := by
  constructor
  · rintro ⟨g, hg, ht⟩
    simp only [setFlipped, List.mem_map] at hg
    obtain ⟨g0, hg0, rfl⟩ := hg
    rw [type_flip] at ht
    exact ⟨g0, hg0, ht⟩
  · rintro ⟨g, hg, ht⟩
    refine ⟨if g.type = u then { g with flipped := v } else g, ?_, ?_⟩
    · simp only [setFlipped, List.mem_map]
      exact ⟨g, hg, rfl⟩
    · rw [type_flip]; exact ht

/-! ## Closed forms of the transition steps -/

theorem wellFormed_get {gifs : List GifInfo} (hwf : WellFormed gifs) {i : Nat} {g : GifInfo}
    (h : gifs[i]? = some g) :
    g.animation.frameCount ≤ g.animation.frameDelays.length ∧ g.animation.frameDelays ≠ [] :=
  hwf g (List.getElem?_mem h)

theorem armAnimationTimer_eq (s : App) :
    ∃ a, armAnimationTimer s = { s with animTimer := a } := by
  unfold armAnimationTimer
  split
  · exact ⟨s.animTimer, rfl⟩
  · exact ⟨_, rfl⟩

theorem ResizeWindowToGif_eq (img : Option Image) (s : App) :
    ∃ w h, ResizeWindowToGif img s = { s with windowWidth := w, windowHeight := h } := by
  cases img with
  | none => exact ⟨s.windowWidth, s.windowHeight, rfl⟩
  | some i => exact ⟨i.width, i.height, rfl⟩

theorem queueGifForState_found (p : AppState) (s : App) (i : Nat) (g : GifInfo)
    (hfirst : firstOfType (lookupCategory s.g_appState) s.g_gifs = some i)
    (hg : s.g_gifs[i]? = some g)
    (hn : g.animation.frameCount ≤ g.animation.frameDelays.length) :
    ∃ w h a, queueGifForState p s =
      some { s with g_frameQueue := expectedQueue g, g_currentFrameIndex := 0
                    windowWidth := w, windowHeight := h, animTimer := a } := by
  unfold queueGifForState
  rw [hfirst]
  simp only []
  rw [QueueFramesFromGif_eq { s with g_frameQueue := [], g_currentFrameIndex := 0 } i g hg hn]
  simp only []
  obtain ⟨w, h, hr⟩ := ResizeWindowToGif_eq
    (({ s with g_frameQueue := expectedQueue g, g_currentFrameIndex := 0 } : App).g_gifs[i]?.bind
      (fun g => g.animation.image))
    { s with g_frameQueue := expectedQueue g, g_currentFrameIndex := 0 }
  obtain ⟨a, ha⟩ := armAnimationTimer_eq
    { s with g_frameQueue := expectedQueue g, g_currentFrameIndex := 0
             windowWidth := w, windowHeight := h }
  exact ⟨w, h, a, by rw [← ha, ← hr]⟩

theorem queueGifForState_missing (p : AppState) (s : App)
    (hnone : firstOfType (lookupCategory s.g_appState) s.g_gifs = none) :
    queueGifForState p s = some { s with g_appState := p } := by
  unfold queueGifForState
  rw [hnone]

theorem StartStateTimer_eq (d : Nat) (s : App) (hwf : WellFormed s.g_gifs) :
    ∃ a, StartStateTimer d s =
      some { s with stateTimer := some (if s.g_appState = AppState.STATE_MOVE then 50 else d)
                    animTimer := a } := by
  unfold StartStateTimer
  simp only []
  by_cases hc : s.g_hasGifs = true ∧ s.g_currentGifIndex < s.g_gifs.length
  · obtain ⟨g, hg⟩ : ∃ g, s.g_gifs[s.g_currentGifIndex]? = some g :=
      ⟨_, List.getElem?_eq_getElem hc.2⟩
    have hne := (wellFormed_get hwf hg).2
    obtain ⟨d0, hd0⟩ : ∃ d0, g.animation.frameDelays[0]? = some d0 :=
      ⟨_, List.getElem?_eq_getElem (List.length_pos.mpr hne)⟩
    refine ⟨some (max d0 MIN_FRAME_DELAY), ?_⟩
    rw [if_pos hc, hg]
    simp only []
    rw [hd0]
  · exact ⟨none, by rw [if_neg hc]⟩

/-- Under a well-formed catalog the shared lookup block returns; it only writes the
queue, the cursor, the window size and the playback timer when an asset of the state's
category exists, and only puts back the previous state when none does. -/
theorem queueGifForState_cases (p : AppState) (s : App) (hwf : WellFormed s.g_gifs) :
    (∃ i g w h a, firstOfType (lookupCategory s.g_appState) s.g_gifs = some i ∧
        s.g_gifs[i]? = some g ∧ g.type = lookupCategory s.g_appState ∧
        queueGifForState p s =
          some { s with g_frameQueue := expectedQueue g, g_currentFrameIndex := 0
                        windowWidth := w, windowHeight := h, animTimer := a }) ∨
    ((∀ g ∈ s.g_gifs, g.type ≠ lookupCategory s.g_appState) ∧
        queueGifForState p s = some { s with g_appState := p }) := by
  cases hf : firstOfType (lookupCategory s.g_appState) s.g_gifs with
  | none =>
    right
    exact ⟨(firstOfType_none_iff _ _).mp hf, queueGifForState_missing p s hf⟩
  | some i =>
    left
    obtain ⟨g, hg, ht, _⟩ := firstOfType_some _ _ i hf
    obtain ⟨w, h, a, hq⟩ := queueGifForState_found p s i g hf hg (wellFormed_get hwf hg).1
    exact ⟨i, g, w, h, a, rfl, hg, ht, hq⟩

/-! ## Catalogs that differ only in orientation -/

theorem sameAssets_setFlipped (u : GifType) (v : Bool) (gifs : List GifInfo) :
    SameAssets (setFlipped u v gifs) gifs := by
  unfold SameAssets setFlipped
  rw [List.map_map]
  apply List.map_congr_left
  intro g _
  by_cases hu : g.type = u <;> simp [hu]

theorem SameAssets.trans {a b c : List GifInfo} (h1 : SameAssets a b) (h2 : SameAssets b c) :
    SameAssets a c := Eq.trans h1 h2

theorem SameAssets.firstOfType_eq (t : GifType) :
    ∀ {a b : List GifInfo}, SameAssets a b → firstOfType t a = firstOfType t b := by
  intro a
  induction a with
  | nil =>
    intro b h
    cases b with
    | nil => rfl
    | cons y ys => simp [SameAssets] at h
  | cons x xs ih =>
    intro b h
    cases b with
    | nil => simp [SameAssets] at h
    | cons y ys =>
      simp only [SameAssets, List.map_cons, List.cons.injEq, Prod.mk.injEq] at h
      have hrest : firstOfType t xs = firstOfType t ys := ih h.2
      simp only [firstOfType, h.1.2.1, hrest]

theorem SameAssets.countOfType_eq (t : GifType) :
    ∀ {a b : List GifInfo}, SameAssets a b → countOfType t a = countOfType t b := by
  intro a
  induction a with
  | nil =>
    intro b h
    cases b with
    | nil => rfl
    | cons y ys => simp [SameAssets] at h
  | cons x xs ih =>
    intro b h
    cases b with
    | nil => simp [SameAssets] at h
    | cons y ys =>
      simp only [SameAssets, List.map_cons, List.cons.injEq, Prod.mk.injEq] at h
      have hrest : countOfType t xs = countOfType t ys := ih h.2
      simp only [countOfType, h.1.2.1, hrest]

theorem SameAssets.wellFormed {a b : List GifInfo} (h : SameAssets a b) (hwf : WellFormed b) :
    WellFormed a := by
  intro g hg
  have hmem : (g.filePath, g.type, g.animation) ∈
      b.map (fun g => (g.filePath, g.type, g.animation)) := by
    rw [← h]; exact List.mem_map_of_mem _ hg
  obtain ⟨g1, hg1, heq⟩ := List.mem_map.mp hmem
  simp only [Prod.mk.injEq] at heq
  rw [← heq.2.2]
  exact hwf g1 hg1

theorem SameAssets.exists_type {a b : List GifInfo} (h : SameAssets a b) (t : GifType)
    (hb : ∃ g ∈ b, g.type = t) : ∃ g ∈ a, g.type = t := by
  by_contra hcon
  have hnone : firstOfType t a = none :=
    (firstOfType_none_iff t a).mpr (fun g hg ht => hcon ⟨g, hg, ht⟩)
  rw [h.firstOfType_eq t] at hnone
  obtain ⟨g, hg, ht⟩ := hb
  exact (firstOfType_none_iff t b).mp hnone g hg ht

theorem SameAssets.ne_nil {a b : List GifInfo} (h : SameAssets a b) (hb : b ≠ []) : a ≠ [] := by
  intro ha
  subst ha
  cases b with
  | nil => exact hb rfl
  | cons y ys => simp [SameAssets] at h

theorem MoveWindow_sameAssets (s : App) : SameAssets (MoveWindow s).g_gifs s.g_gifs := by
  unfold MoveWindow
  dsimp only
  split_ifs <;> first | exact rfl | exact sameAssets_setFlipped _ _ _

theorem MoveWindow_appState (s : App) : (MoveWindow s).g_appState = s.g_appState := by
  unfold MoveWindow
  dsimp only
  split_ifs <;> rfl

theorem applyDrawnState_sameAssets (r : Draws) (s : App) :
    SameAssets (applyDrawnState r s).g_gifs s.g_gifs := by
  unfold applyDrawnState
  split
  · exact (MoveWindow_sameAssets _).trans (sameAssets_setFlipped _ _ _)
  · exact rfl
  · exact rfl
  · simp only []
    split_ifs <;> exact rfl
  · exact rfl

theorem advanceManualState_gifs (s : App) : (advanceManualState s).g_gifs = s.g_gifs := by
  unfold advanceManualState
  simp only []
  split_ifs <;> rfl

/-! ## Manual cycle -/

theorem SwitchToNextGif_cases (s : App) (hne : s.g_gifs ≠ []) (hwf : WellFormed s.g_gifs) :
    (∃ i g w h a, firstOfType (lookupCategory (advanceManualState s).g_appState) s.g_gifs = some i ∧
        s.g_gifs[i]? = some g ∧ g.type = lookupCategory (advanceManualState s).g_appState ∧
        SwitchToNextGif s =
          some { advanceManualState s with
                 g_frameQueue := expectedQueue g, g_currentFrameIndex := 0
                 windowWidth := w, windowHeight := h, animTimer := a }) ∨
    ((∀ g ∈ s.g_gifs, g.type ≠ lookupCategory (advanceManualState s).g_appState) ∧
        SwitchToNextGif s = some { advanceManualState s with g_appState := s.g_appState }) := by
  have hgifs := advanceManualState_gifs s
  have hwf1 : WellFormed (advanceManualState s).g_gifs := by rw [hgifs]; exact hwf
  unfold SwitchToNextGif
  rw [if_neg hne]
  rcases queueGifForState_cases s.g_appState (advanceManualState s) hwf1 with
    ⟨i, g, w, h, a, hf, hg, ht, hq⟩ | ⟨hnone, hq⟩
  · rw [hgifs] at hf hg
    exact Or.inl ⟨i, g, w, h, a, hf, hg, ht, hq⟩
  · rw [hgifs] at hnone
    exact Or.inr ⟨hnone, hq⟩

theorem advanceManualState_of_wait (s : App) (h : s.g_appState = AppState.STATE_WAIT) :
    (advanceManualState s).g_appState = AppState.STATE_SIT := by
  unfold advanceManualState
  simp [h]

theorem advanceManualState_of_sit (s : App) (h : s.g_appState = AppState.STATE_SIT) :
    (advanceManualState s).g_appState = AppState.STATE_MISC := by
  unfold advanceManualState
  simp [h]

theorem SwitchToNextGif_wait_to_sit (s : App) (hwf : WellFormed s.g_gifs)
    (hstate : s.g_appState = AppState.STATE_WAIT) (hsit : ∃ g ∈ s.g_gifs, g.type = GifType.SIT) :
    ∃ s1, SwitchToNextGif s = some s1 ∧ s1.g_appState = AppState.STATE_SIT ∧
      s1.g_gifs = s.g_gifs := by
  have hne : s.g_gifs ≠ [] := by
    obtain ⟨g, hg, _⟩ := hsit
    exact List.ne_nil_of_mem hg
  have hadv := advanceManualState_of_wait s hstate
  rcases SwitchToNextGif_cases s hne hwf with ⟨i, g, w, h, a, _, _, _, hq⟩ | ⟨hnone, _⟩
  · exact ⟨_, hq, hadv, advanceManualState_gifs s⟩
  · obtain ⟨g, hg, ht⟩ := hsit
    rw [hadv] at hnone
    exact absurd ht (hnone g hg)

theorem SwitchToNextGif_sit_stays (s : App) (hwf : WellFormed s.g_gifs)
    (hstate : s.g_appState = AppState.STATE_SIT) (hne : s.g_gifs ≠ [])
    (hmisc : ∀ g ∈ s.g_gifs, g.type ≠ GifType.MISC) :
    ∃ s1, SwitchToNextGif s = some s1 ∧ s1.g_appState = AppState.STATE_SIT ∧
      s1.g_gifs = s.g_gifs := by
  have hadv := advanceManualState_of_sit s hstate
  rcases SwitchToNextGif_cases s hne hwf with ⟨i, g, w, h, a, _, hg, ht, _⟩ | ⟨_, hq⟩
  · rw [hadv] at ht
    exact absurd ht (hmisc g (List.getElem?_mem hg))
  · exact ⟨_, hq, hstate, advanceManualState_gifs s⟩

theorem manualCycles_sit_stays (n : Nat) :
    ∀ (s : App), WellFormed s.g_gifs → s.g_appState = AppState.STATE_SIT → s.g_gifs ≠ [] →
      (∀ g ∈ s.g_gifs, g.type ≠ GifType.MISC) →
      ∃ s1, manualCycles n s = some s1 ∧ s1.g_appState = AppState.STATE_SIT := by
  induction n with
  | zero => intro s _ hstate _ _; exact ⟨s, rfl, hstate⟩
  | succ k ih =>
    intro s hwf hstate hne hmisc
    obtain ⟨s1, h1, hs1, hg1⟩ := SwitchToNextGif_sit_stays s hwf hstate hne hmisc
    obtain ⟨s2, h2, hs2⟩ := ih s1 (by rw [hg1]; exact hwf) hs1 (by rw [hg1]; exact hne)
      (by rw [hg1]; exact hmisc)
    exact ⟨s2, by simp only [manualCycles, h1, h2], hs2⟩

/-- C3 (the claim fails): with one movement, one idle-wait and one sit asset and the
state `STATE_WAIT`, the first manual cycle request reaches `STATE_SIT`, and the second
and the third leave it there: the second does not reach `STATE_MOVE`, the third does
not return to `STATE_WAIT`. -/
theorem manual_cycle_not_skipping_misc :
    (manualCycles 1 exMoveWaitSit).map App.g_appState = some AppState.STATE_SIT ∧
    (manualCycles 2 exMoveWaitSit).map App.g_appState = some AppState.STATE_SIT ∧
    (manualCycles 2 exMoveWaitSit).map App.g_appState ≠ some AppState.STATE_MOVE ∧
    (manualCycles 3 exMoveWaitSit).map App.g_appState = some AppState.STATE_SIT ∧
    (manualCycles 3 exMoveWaitSit).map App.g_appState ≠ some AppState.STATE_WAIT := by
  decide

/-- C3 (amended): in `STATE_WAIT`, with a catalog that has a sit asset and no misc asset
(such as one movement, one idle-wait and one sit asset), the first manual cycle request
moves to `STATE_SIT` and every further request leaves the state at `STATE_SIT`, because
the step into the absent misc category is reverted. -/
theorem manual_cycle_stops_at_sit (s : App) (n : Nat) (hwf : WellFormed s.g_gifs)
    (hstate : s.g_appState = AppState.STATE_WAIT)
    (hsit : ∃ g ∈ s.g_gifs, g.type = GifType.SIT)
    (hmisc : ∀ g ∈ s.g_gifs, g.type ≠ GifType.MISC) :
    ∃ s1, manualCycles (n + 1) s = some s1 ∧ s1.g_appState = AppState.STATE_SIT := by
  obtain ⟨s1, h1, hs1, hg1⟩ := SwitchToNextGif_wait_to_sit s hwf hstate hsit
  have hne : s.g_gifs ≠ [] := by
    obtain ⟨g, hg, _⟩ := hsit
    exact List.ne_nil_of_mem hg
  obtain ⟨s2, h2, hs2⟩ := manualCycles_sit_stays n s1 (by rw [hg1]; exact hwf) hs1
    (by rw [hg1]; exact hne) (by rw [hg1]; exact hmisc)
  exact ⟨s2, by simp only [manualCycles, h1, h2], hs2⟩

/-- C3 (amended) for five requests on the catalog of one movement, one idle-wait and one
sit asset. -/
theorem manual_cycle_stops_at_sit_witness :
    ∃ s1, manualCycles (4 + 1) exMoveWaitSit = some s1 ∧ s1.g_appState = AppState.STATE_SIT :=
  manual_cycle_stops_at_sit exMoveWaitSit 4 (by decide) rfl (by decide) (by decide)

/-! ## Automatic tick -/

theorem UpdateAppState_cases (r : Draws) (s : App) (hne : s.g_gifs ≠ [])
    (hwf : WellFormed s.g_gifs) :
    (∃ i g w h a, firstOfType (lookupCategory (applyDrawnState r s).g_appState)
          (applyDrawnState r s).g_gifs = some i ∧
        (applyDrawnState r s).g_gifs[i]? = some g ∧
        g.type = lookupCategory (applyDrawnState r s).g_appState ∧
        UpdateAppState r s =
          some { applyDrawnState r s with
                 g_frameQueue := expectedQueue g, g_currentFrameIndex := 0
                 windowWidth := w, windowHeight := h
                 stateTimer := some (if (applyDrawnState r s).g_appState = AppState.STATE_MOVE
                   then 50 else r.duration)
                 animTimer := a }) ∨
    ((∀ g ∈ (applyDrawnState r s).g_gifs,
          g.type ≠ lookupCategory (applyDrawnState r s).g_appState) ∧
      ∃ a, UpdateAppState r s =
          some { applyDrawnState r s with
                 g_appState := s.g_appState
                 stateTimer := some (if s.g_appState = AppState.STATE_MOVE then 50 else r.duration)
                 animTimer := a }) := by
  have hwf1 : WellFormed (applyDrawnState r s).g_gifs :=
    (applyDrawnState_sameAssets r s).wellFormed hwf
  unfold UpdateAppState
  rw [if_neg hne]
  simp only []
  rcases queueGifForState_cases s.g_appState (applyDrawnState r s) hwf1 with
    ⟨i, g, w, h, a, hf, hg, ht, hq⟩ | ⟨hnone, hq⟩
  · left
    obtain ⟨a1, ha1⟩ := StartStateTimer_eq r.duration
      { applyDrawnState r s with
        g_frameQueue := expectedQueue g, g_currentFrameIndex := 0
        windowWidth := w, windowHeight := h, animTimer := a } hwf1
    exact ⟨i, g, w, h, a1, hf, hg, ht, by rw [hq]; exact ha1⟩
  · right
    obtain ⟨a1, ha1⟩ := StartStateTimer_eq r.duration
      { applyDrawnState r s with g_appState := s.g_appState } hwf1
    exact ⟨hnone, a1, by rw [hq]; exact ha1⟩

/-- C4: for every non-empty (well-formed) catalog, every current state and every random
draw, `SwitchToNextGif` and `UpdateAppState` return; when the category of the state they
head for has no asset in the catalog, `g_appState` is what it was before the call; and
when `g_appState` has changed, the catalog holds an asset of the new state's category. -/
theorem no_entry_into_empty_category (s : App) (r : Draws) (hne : s.g_gifs ≠ [])
    (hwf : WellFormed s.g_gifs) :
    (∃ s1, SwitchToNextGif s = some s1 ∧
      ((∀ g ∈ s.g_gifs, g.type ≠ lookupCategory (advanceManualState s).g_appState) →
        s1.g_appState = s.g_appState) ∧
      (s1.g_appState ≠ s.g_appState →
        (∃ g ∈ s.g_gifs, g.type = lookupCategory s1.g_appState) ∧
        ∃ g ∈ s1.g_gifs, g.type = lookupCategory s1.g_appState)) ∧
    (∃ s1, UpdateAppState r s = some s1 ∧
      ((∀ g ∈ s.g_gifs, g.type ≠ lookupCategory (applyDrawnState r s).g_appState) →
        s1.g_appState = s.g_appState) ∧
      (s1.g_appState ≠ s.g_appState →
        (∃ g ∈ s.g_gifs, g.type = lookupCategory s1.g_appState) ∧
        ∃ g ∈ s1.g_gifs, g.type = lookupCategory s1.g_appState)) := by
  constructor
  · rcases SwitchToNextGif_cases s hne hwf with ⟨i, g, w, h, a, _, hg, ht, hq⟩ | ⟨_, hq⟩
    · refine ⟨_, hq, ?_, ?_⟩
      · intro hnone
        exact absurd ht (hnone g (List.getElem?_mem hg))
      · intro _
        have hmem : g ∈ s.g_gifs := List.getElem?_mem hg
        exact ⟨⟨g, hmem, ht⟩, ⟨g, by rw [advanceManualState_gifs]; exact hmem, ht⟩⟩
    · exact ⟨_, hq, fun _ => rfl, fun hchg => absurd rfl hchg⟩
  · have hsame := applyDrawnState_sameAssets r s
    rcases UpdateAppState_cases r s hne hwf with ⟨i, g, w, h, a, _, hg, ht, hq⟩ | ⟨_, a, hq⟩
    · have hmem : g ∈ (applyDrawnState r s).g_gifs := List.getElem?_mem hg
      have hex : ∃ g ∈ s.g_gifs, g.type = lookupCategory (applyDrawnState r s).g_appState := by
        by_contra hcon
        have hnone : firstOfType (lookupCategory (applyDrawnState r s).g_appState) s.g_gifs
            = none :=
          (firstOfType_none_iff _ _).mpr (fun g1 hg1 ht1 => hcon ⟨g1, hg1, ht1⟩)
        rw [← hsame.firstOfType_eq] at hnone
        exact (firstOfType_none_iff _ _).mp hnone g hmem ht
      refine ⟨_, hq, ?_, ?_⟩
      · intro hnone
        obtain ⟨g1, hg1, ht1⟩ := hex
        exact absurd ht1 (hnone g1 hg1)
      · intro _
        exact ⟨hex, ⟨g, hmem, ht⟩⟩
    · exact ⟨_, hq, fun _ => rfl, fun hchg => absurd rfl hchg⟩

/-- C4 in `STATE_WAIT` with a wait and a movement asset: the manual request heads for the
absent sit category, the automatic tick draws the absent misc category. -/
theorem no_entry_into_empty_category_witness :
    (∃ s1, SwitchToNextGif
        (exApp [exGif GifType.WAIT 1 [100], exGif GifType.MOVE 2 [30, 30]]) = some s1 ∧
      ((∀ g ∈ (exApp [exGif GifType.WAIT 1 [100], exGif GifType.MOVE 2 [30, 30]]).g_gifs,
          g.type ≠ lookupCategory (advanceManualState
            (exApp [exGif GifType.WAIT 1 [100], exGif GifType.MOVE 2 [30, 30]])).g_appState) →
        s1.g_appState = AppState.STATE_WAIT) ∧
      (s1.g_appState ≠ AppState.STATE_WAIT →
        (∃ g ∈ (exApp [exGif GifType.WAIT 1 [100], exGif GifType.MOVE 2 [30, 30]]).g_gifs,
          g.type = lookupCategory s1.g_appState) ∧
        ∃ g ∈ s1.g_gifs, g.type = lookupCategory s1.g_appState)) ∧
    (∃ s1, UpdateAppState exDrawsMisc
        (exApp [exGif GifType.WAIT 1 [100], exGif GifType.MOVE 2 [30, 30]]) = some s1 ∧
      ((∀ g ∈ (exApp [exGif GifType.WAIT 1 [100], exGif GifType.MOVE 2 [30, 30]]).g_gifs,
          g.type ≠ lookupCategory (applyDrawnState exDrawsMisc
            (exApp [exGif GifType.WAIT 1 [100], exGif GifType.MOVE 2 [30, 30]])).g_appState) →
        s1.g_appState = AppState.STATE_WAIT) ∧
      (s1.g_appState ≠ AppState.STATE_WAIT →
        (∃ g ∈ (exApp [exGif GifType.WAIT 1 [100], exGif GifType.MOVE 2 [30, 30]]).g_gifs,
          g.type = lookupCategory s1.g_appState) ∧
        ∃ g ∈ s1.g_gifs, g.type = lookupCategory s1.g_appState)) :=
  no_entry_into_empty_category
    (exApp [exGif GifType.WAIT 1 [100], exGif GifType.MOVE 2 [30, 30]]) exDrawsMisc
    (by decide) (by decide)

/-! ## Pick-up and release -/

theorem run_append (ms1 ms2 : List Msg) :
    ∀ (s : App), run (ms1 ++ ms2) s = (run ms1 s).bind (run ms2) := by
  induction ms1 with
  | nil => intro s; rfl
  | cons m rest ih =>
    intro s
    simp only [List.cons_append, run]
    cases WindowProc m s with
    | none => rfl
    | some s1 => exact ih s1

theorem advanceManualState_frame (s : App) :
    (advanceManualState s).g_isPickMode = s.g_isPickMode ∧
      (advanceManualState s).g_prevState = s.g_prevState := by
  unfold advanceManualState
  simp only []
  split_ifs <;> exact ⟨rfl, rfl⟩

theorem onLButtonDown_cases (s : App) (hne : s.g_gifs ≠ []) (hwf : WellFormed s.g_gifs) :
    (∃ i g a, firstOfType GifType.PICK s.g_gifs = some i ∧ s.g_gifs[i]? = some g ∧
        g.type = GifType.PICK ∧
        onLButtonDown s =
          some { s with g_prevState := s.g_appState, g_isPickMode := true
                        g_appState := AppState.STATE_PICK
                        g_frameQueue := expectedQueue g, g_currentFrameIndex := 0
                        animTimer := a }) ∨
    ((∀ g ∈ s.g_gifs, g.type ≠ GifType.PICK) ∧
        onLButtonDown s =
          some { s with g_prevState := s.g_appState, g_isPickMode := true
                        g_appState := AppState.STATE_PICK }) := by
  unfold onLButtonDown
  rw [if_pos hne]
  simp only []
  cases hf : firstOfType GifType.PICK s.g_gifs with
  | none => exact Or.inr ⟨(firstOfType_none_iff _ _).mp hf, rfl⟩
  | some i =>
    left
    obtain ⟨g, hg, ht, _⟩ := firstOfType_some _ _ i hf
    simp only []
    rw [QueueFramesFromGif_eq
      { s with g_prevState := s.g_appState, g_isPickMode := true
               g_appState := AppState.STATE_PICK, g_frameQueue := [], g_currentFrameIndex := 0 }
      i g hg (wellFormed_get hwf hg).1]
    simp only []
    obtain ⟨a, ha⟩ := armAnimationTimer_eq
      { s with g_prevState := s.g_appState, g_isPickMode := true
               g_appState := AppState.STATE_PICK
               g_frameQueue := expectedQueue g, g_currentFrameIndex := 0 }
    exact ⟨i, g, a, rfl, hg, ht, by rw [← ha]⟩

theorem onLButtonUp_cases (d : Nat) (s : App) (hpick : s.g_isPickMode = true)
    (hwf : WellFormed s.g_gifs) :
    (∃ i g st a, firstOfType (targetTypeOf s.g_prevState) s.g_gifs = some i ∧
        s.g_gifs[i]? = some g ∧ g.type = targetTypeOf s.g_prevState ∧
        onLButtonUp d s =
          some { s with g_isPickMode := false, g_appState := s.g_prevState
                        g_frameQueue := expectedQueue g, g_currentFrameIndex := 0
                        stateTimer := st, animTimer := a }) ∨
    ((∀ g ∈ s.g_gifs, g.type ≠ targetTypeOf s.g_prevState) ∧
      ∃ st a, onLButtonUp d s =
          some { s with g_isPickMode := false, g_appState := s.g_prevState
                        stateTimer := st, animTimer := a }) := by
  unfold onLButtonUp
  rw [if_pos hpick]
  simp only []
  cases hf : firstOfType (targetTypeOf s.g_prevState) s.g_gifs with
  | none =>
    right
    refine ⟨(firstOfType_none_iff _ _).mp hf, ?_⟩
    simp only []
    by_cases hm : s.g_appMode = AppMode.AUTOMATIC
    · rw [if_pos hm]
      obtain ⟨a, ha⟩ := StartStateTimer_eq d
        { s with g_isPickMode := false, g_appState := s.g_prevState } hwf
      exact ⟨_, a, ha⟩
    · rw [if_neg hm]
      exact ⟨s.stateTimer, s.animTimer, rfl⟩
  | some i =>
    left
    obtain ⟨g, hg, ht, _⟩ := firstOfType_some _ _ i hf
    simp only []
    rw [QueueFramesFromGif_eq
      { s with g_isPickMode := false, g_appState := s.g_prevState
               g_frameQueue := [], g_currentFrameIndex := 0 }
      i g hg (wellFormed_get hwf hg).1]
    simp only []
    obtain ⟨a, ha⟩ := armAnimationTimer_eq
      { s with g_isPickMode := false, g_appState := s.g_prevState
               g_frameQueue := expectedQueue g, g_currentFrameIndex := 0 }
    rw [ha]
    simp only []
    by_cases hm : s.g_appMode = AppMode.AUTOMATIC
    · rw [if_pos hm]
      obtain ⟨a1, ha1⟩ := StartStateTimer_eq d
        { s with g_isPickMode := false, g_appState := s.g_prevState
                 g_frameQueue := expectedQueue g, g_currentFrameIndex := 0
                 animTimer := a } hwf
      exact ⟨i, g, _, a1, rfl, hg, ht, ha1⟩
    · rw [if_neg hm]
      exact ⟨i, g, s.stateTimer, a, rfl, hg, ht, rfl⟩

theorem between_step (m : Msg) (s : App) (hm : m.isBetween = true)
    (hpick : s.g_isPickMode = true) (hwf : WellFormed s.g_gifs) :
    ∃ s1, WindowProc m s = some s1 ∧ s1.g_isPickMode = true ∧
      s1.g_prevState = s.g_prevState ∧ s1.g_gifs = s.g_gifs := by
  cases m with
  | WM_TIMER w r =>
    have h1 : ¬(w = TIMER_ID ∧ s.g_appMode = AppMode.AUTOMATIC ∧ s.g_isPickMode = false) := by
      simp [hpick]
    simp only [WindowProc, onTimer]
    rw [if_neg h1]
    by_cases h2 : w = ANIMATION_TIMER_ID ∧ s.g_frameQueue ≠ []
    · rw [if_pos h2]
      have hlt : (s.g_currentFrameIndex + 1) % s.g_frameQueue.length < s.g_frameQueue.length :=
        Nat.mod_lt _ (List.length_pos.mpr h2.2)
      rw [List.getElem?_eq_getElem hlt]
      exact ⟨_, rfl, hpick, rfl, rfl⟩
    · rw [if_neg h2]
      exact ⟨s, rfl, hpick, rfl, rfl⟩
  | WM_KEYDOWN w d =>
    simp only [WindowProc, onKeyDown]
    by_cases hM : w = KEY_M
    · rw [if_pos hM]
      exact ⟨_, rfl, hpick, rfl, rfl⟩
    · rw [if_neg hM]
      by_cases hA : w = KEY_A
      · rw [if_pos hA]
        by_cases hmode : s.g_appMode = AppMode.AUTOMATIC
        · simp only [hmode, if_true]
          rw [if_neg (by decide)]
          exact ⟨_, rfl, hpick, rfl, rfl⟩
        · simp only [hmode, if_false, if_true]
          obtain ⟨a, ha⟩ := StartStateTimer_eq d { s with g_appMode := AppMode.AUTOMATIC } hwf
          exact ⟨_, ha, hpick, rfl, rfl⟩
      · rw [if_neg hA]
        by_cases hS : w = VK_SPACE
        · rw [if_pos hS]
          by_cases hc : s.g_appMode = AppMode.MANUAL ∧ s.g_gifs ≠ []
          · rw [if_pos hc]
            have hfr := advanceManualState_frame s
            have hgf := advanceManualState_gifs s
            rcases SwitchToNextGif_cases s hc.2 hwf with ⟨i, g, w1, h, a, _, _, _, hq⟩ | ⟨_, hq⟩
            · exact ⟨_, hq, hfr.1.trans hpick, hfr.2, hgf⟩
            · exact ⟨_, hq, hfr.1.trans hpick, hfr.2, hgf⟩
          · rw [if_neg hc]
            exact ⟨s, rfl, hpick, rfl, rfl⟩
        · rw [if_neg hS]
          exact ⟨s, rfl, hpick, rfl, rfl⟩
  | WM_MOUSEMOVE x y =>
    simp only [WindowProc, onMouseMove]
    rw [if_pos hpick]
    exact ⟨_, rfl, hpick, rfl, rfl⟩
  | WM_LBUTTONDOWN => simp [Msg.isBetween] at hm
  | WM_LBUTTONUP d => simp [Msg.isBetween] at hm
  | WM_COMMAND f d => simp [Msg.isBetween] at hm

theorem between_run :
    ∀ (ms : List Msg) (s : App), (∀ m ∈ ms, m.isBetween = true) →
      s.g_isPickMode = true → WellFormed s.g_gifs →
      ∃ s1, run ms s = some s1 ∧ s1.g_isPickMode = true ∧
        s1.g_prevState = s.g_prevState ∧ s1.g_gifs = s.g_gifs := by
  intro ms
  induction ms with
  | nil => intro s _ hpick _; exact ⟨s, rfl, hpick, rfl, rfl⟩
  | cons m rest ih =>
    intro s hms hpick hwf
    obtain ⟨s1, h1, hp1, hprev1, hg1⟩ :=
      between_step m s (hms m (List.mem_cons_self _ _)) hpick hwf
    obtain ⟨s2, h2, hp2, hprev2, hg2⟩ :=
      ih s1 (fun m hm => hms m (List.mem_cons_of_mem _ hm)) hp1 (by rw [hg1]; exact hwf)
    exact ⟨s2, by simp only [run, h1, h2], hp2, hprev2.trans hprev1, hg2.trans hg1⟩

theorem onLButtonDown_frame (s : App) (hne : s.g_gifs ≠ []) (hwf : WellFormed s.g_gifs) :
    ∃ s1, onLButtonDown s = some s1 ∧ s1.g_isPickMode = true ∧
      s1.g_prevState = s.g_appState ∧ s1.g_gifs = s.g_gifs ∧ s1.g_appMode = s.g_appMode := by
  rcases onLButtonDown_cases s hne hwf with ⟨i, g, a, _, _, _, hq⟩ | ⟨_, hq⟩
  · exact ⟨_, hq, rfl, rfl, rfl, rfl⟩
  · exact ⟨_, hq, rfl, rfl, rfl, rfl⟩

theorem onLButtonUp_frame (d : Nat) (s : App) (hpick : s.g_isPickMode = true)
    (hwf : WellFormed s.g_gifs) :
    ∃ s1, onLButtonUp d s = some s1 ∧ s1.g_isPickMode = false ∧
      s1.g_appState = s.g_prevState ∧ s1.g_gifs = s.g_gifs := by
  rcases onLButtonUp_cases d s hpick hwf with ⟨i, g, st, a, _, _, _, hq⟩ | ⟨_, st, a, hq⟩
  · exact ⟨_, hq, rfl, rfl, rfl⟩
  · exact ⟨_, hq, rfl, rfl, rfl⟩

/-- C5: for every non-empty (well-formed) catalog and every state `S`, with the pet not
picked up or `g_isPickMode` already set, a press followed by a release, with any
number of timer ticks of either timer, key presses (manual cycle requests among them)
and mouse moves in between, but no import and no second press, is handled to the end
and finishes with `g_appState = S` and `g_isPickMode = false`. -/
theorem pick_release_restores_state (s : App) (between : List Msg) (d : Nat)
    (hne : s.g_gifs ≠ []) (hwf : WellFormed s.g_gifs)
    (hbetween : ∀ m ∈ between, m.isBetween = true) :
    ∃ s1, run ([Msg.WM_LBUTTONDOWN] ++ between ++ [Msg.WM_LBUTTONUP d]) s = some s1 ∧
      s1.g_appState = s.g_appState ∧ s1.g_isPickMode = false := by
  obtain ⟨s1, h1, hp1, hprev1, hg1, _⟩ := onLButtonDown_frame s hne hwf
  obtain ⟨s2, h2, hp2, hprev2, hg2⟩ :=
    between_run between s1 hbetween hp1 (by rw [hg1]; exact hwf)
  obtain ⟨s3, h3, hp3, hst3, _⟩ :=
    onLButtonUp_frame d s2 hp2 (by rw [hg2, hg1]; exact hwf)
  refine ⟨s3, ?_, ?_, hp3⟩
  · have hdown : run [Msg.WM_LBUTTONDOWN] s = some s1 := by
      simp only [run, WindowProc, h1]
    have hup : run [Msg.WM_LBUTTONUP d] s2 = some s3 := by
      simp only [run, WindowProc, h3]
    rw [run_append, run_append, hdown, Option.some_bind, h2, Option.some_bind, hup]
  · rw [hst3, hprev2, hprev1]

/-- C5 in manual mode with two cycle requests, a coarse tick and a fine tick between
press and release. -/
theorem pick_release_restores_state_witness :
    ∃ s1, run ([Msg.WM_LBUTTONDOWN] ++
        [Msg.WM_KEYDOWN VK_SPACE 0, Msg.WM_TIMER TIMER_ID exDraws,
          Msg.WM_TIMER ANIMATION_TIMER_ID exDraws, Msg.WM_KEYDOWN VK_SPACE 0] ++
        [Msg.WM_LBUTTONUP 6000]) exSitWait = some s1 ∧
      s1.g_appState = AppState.STATE_WAIT ∧ s1.g_isPickMode = false :=
  pick_release_restores_state exSitWait
    [Msg.WM_KEYDOWN VK_SPACE 0, Msg.WM_TIMER TIMER_ID exDraws,
      Msg.WM_TIMER ANIMATION_TIMER_ID exDraws, Msg.WM_KEYDOWN VK_SPACE 0] 6000
    (by decide) (by decide) (by decide)

theorem expectedQueue_image (gif : GifInfo) :
    ∀ f ∈ expectedQueue gif, f.image = gif.animation.image := by
  intro f hf
  simp only [expectedQueue, List.mem_map] at hf
  obtain ⟨p, _, rfl⟩ := hf
  rfl

/-- C6 (the claim fails): importing a folder with `sit.gif` and `wait.gif` leaves the pet
not picked up, in `STATE_WAIT`, with a non-empty queue fed by asset 0, the sit animation
(image 1); after a press immediately followed by a release the queue is fed by the wait
animation (image 2), another asset of the catalog. -/
theorem pick_release_changes_asset :
    (run [exImportSitWait] (App.initial 1920 1080)).map
        (fun s => (s.g_isPickMode, s.g_appState,
          s.g_frameQueue.map (fun f => f.image.map Image.handle)))
      = some (false, AppState.STATE_WAIT, [some 1, some 1, some 1]) ∧
    (run [exImportSitWait, Msg.WM_LBUTTONDOWN, Msg.WM_LBUTTONUP 5000]
        (App.initial 1920 1080)).map
        (fun s => s.g_frameQueue.map (fun f => f.image.map Image.handle))
      = some [some 2, some 2, some 2] := by
  decide

/-- C6 (amended): for every state with a well-formed catalog that has an asset of the
category of the current state (`g` the first such asset), a press immediately followed
by a release is handled to the end and leaves the frame queue rebuilt from `g`, with
cursor 0 and the state as before the press: the asset that feeds the queue after the
release is the first catalog asset of the state's category, whichever asset fed the
queue before the press. -/
theorem pick_release_activates_first_of_category (s : App) (d i : Nat) (g : GifInfo)
    (hwf : WellFormed s.g_gifs)
    (hfirst : firstOfType (targetTypeOf s.g_appState) s.g_gifs = some i)
    (hg : s.g_gifs[i]? = some g) :
    ∃ s1, run [Msg.WM_LBUTTONDOWN, Msg.WM_LBUTTONUP d] s = some s1 ∧
      s1.g_frameQueue = expectedQueue g ∧ s1.g_currentFrameIndex = 0 ∧
      (∀ f ∈ s1.g_frameQueue, f.image = g.animation.image) ∧
      s1.g_appState = s.g_appState ∧ s1.g_isPickMode = false := by
  have hne : s.g_gifs ≠ [] := List.ne_nil_of_mem (List.getElem?_mem hg)
  obtain ⟨s1, h1, hp1, hprev1, hg1, _⟩ := onLButtonDown_frame s hne hwf
  have hwf1 : WellFormed s1.g_gifs := by rw [hg1]; exact hwf
  have hrun : ∀ s2, onLButtonUp d s1 = some s2 →
      run [Msg.WM_LBUTTONDOWN, Msg.WM_LBUTTONUP d] s = some s2 := by
    intro s2 h2
    simp only [run, WindowProc, h1, h2]
  rcases onLButtonUp_cases d s1 hp1 hwf1 with ⟨j, g1, st, a, hf, hgj, _, hq⟩ | ⟨hnone, _⟩
  · rw [hprev1, hg1, hfirst, Option.some.injEq] at hf
    subst hf
    rw [hg1, hg, Option.some.injEq] at hgj
    subst hgj
    exact ⟨_, hrun _ hq, rfl, rfl, expectedQueue_image g, hprev1, rfl⟩
  · rw [hprev1, hg1] at hnone
    have := (firstOfType_none_iff _ _).mpr hnone
    rw [hfirst] at this
    exact absurd this (by simp)

/-- C6 (amended) in `STATE_WAIT` with the catalog sit, wait: the release activates the
wait asset at index 1. -/
theorem pick_release_activates_first_of_category_witness :
    ∃ s1, run [Msg.WM_LBUTTONDOWN, Msg.WM_LBUTTONUP 5000] exSitWait = some s1 ∧
      s1.g_frameQueue = expectedQueue (exGif GifType.WAIT 2 [100]) ∧
      s1.g_currentFrameIndex = 0 ∧
      (∀ f ∈ s1.g_frameQueue, f.image = (exGif GifType.WAIT 2 [100]).animation.image) ∧
      s1.g_appState = exSitWait.g_appState ∧ s1.g_isPickMode = false :=
  pick_release_activates_first_of_category exSitWait 5000 1 (exGif GifType.WAIT 2 [100])
    (by decide) rfl rfl

/-! ## Movement controller -/

/-- C7 (the claim fails): after an import of `move.gif` and twelve automatic ticks that
draw a move to the left, the pet is in `STATE_MOVE` heading right with its window at
x = -20; the next `MoveWindow` step moves the window to x = -10, which is `< 0`, and the
direction does not change, in a direct call and in the automatic tick that draws a move
to the right. -/
theorem move_direction_kept_left_of_screen :
    (run exWalkLeft (App.initial 1920 1080)).map
        (fun s => (s.g_appState, s.g_moveDirectionRight, s.windowLeft, s.windowWidth, s.screenWidth))
      = some (AppState.STATE_MOVE, true, -20, 120, 1920) ∧
    (run exWalkLeft (App.initial 1920 1080)).map
        (fun s => ((MoveWindow s).windowLeft, (MoveWindow s).g_moveDirectionRight))
      = some (-10, true) ∧
    (run (exWalkLeft ++ [Msg.WM_TIMER TIMER_ID exDrawsRight]) (App.initial 1920 1080)).map
        (fun s => (s.windowLeft, s.g_moveDirectionRight))
      = some (-10, true) := by
  decide

theorem map_flip_eq_invert (gifs : List GifInfo) (v : Bool)
    (hsync : ∀ g ∈ gifs, g.type = GifType.MOVE → g.flipped = !v) :
    setFlipped GifType.MOVE v gifs =
      gifs.map (fun g => if g.type = GifType.MOVE then { g with flipped := !g.flipped } else g) := by
  unfold setFlipped
  apply List.map_congr_left
  intro g hg
  by_cases ht : g.type = GifType.MOVE
  · simp [ht, hsync g hg ht]
  · simp [ht]

/-- C7 (amended): for one `MoveWindow` step in `STATE_MOVE`, with `windowX` the position
the step moves the window to (10 further in the direction of travel): the direction
`g_moveDirectionRight` changes exactly when the window was heading right and
`windowX + windowWidth > screenWidth`, or was heading left and `windowX < 0`; a step
that changes the direction sets the `flipped` flag of every movement-category asset to
the orientation of the new direction and leaves all other assets as they are, which
inverts those flags whenever they agreed with the direction before the step (as
`UpdateAppState` sets them before it calls `MoveWindow`); a step that keeps the
direction leaves the catalog unchanged. -/
theorem move_direction_flip (s : App) (hstate : s.g_appState = AppState.STATE_MOVE) :
    (MoveWindow s).windowLeft
        = (if s.g_moveDirectionRight = true then s.windowLeft + 10 else s.windowLeft - 10) ∧
    ((MoveWindow s).g_moveDirectionRight ≠ s.g_moveDirectionRight ↔
      (s.g_moveDirectionRight = true ∧
          (MoveWindow s).windowLeft + s.windowWidth > s.screenWidth) ∨
        (s.g_moveDirectionRight = false ∧ (MoveWindow s).windowLeft < 0)) ∧
    ((MoveWindow s).g_moveDirectionRight ≠ s.g_moveDirectionRight →
      (MoveWindow s).g_gifs = s.g_gifs.map (fun g =>
        if g.type = GifType.MOVE then { g with flipped := !(MoveWindow s).g_moveDirectionRight }
        else g)) ∧
    ((MoveWindow s).g_moveDirectionRight ≠ s.g_moveDirectionRight →
      (∀ g ∈ s.g_gifs, g.type = GifType.MOVE → g.flipped = !s.g_moveDirectionRight) →
      (MoveWindow s).g_gifs = s.g_gifs.map (fun g =>
        if g.type = GifType.MOVE then { g with flipped := !g.flipped } else g)) ∧
    ((MoveWindow s).g_moveDirectionRight = s.g_moveDirectionRight →
      (MoveWindow s).g_gifs = s.g_gifs) := by
  unfold MoveWindow
  rw [if_neg (not_not.mpr hstate)]
  dsimp only
  cases hd : s.g_moveDirectionRight with
  | true =>
    by_cases he : s.windowLeft + 10 + s.windowWidth > s.screenWidth
    · simp only [if_true, if_pos he]
      split_ifs
      all_goals
        refine ⟨rfl, ?_, ?_, ?_, ?_⟩
        · simp [he]
        · intro _; rfl
        · intro _ hsync
          exact map_flip_eq_invert s.g_gifs true (by simpa [hd] using hsync)
        · intro hcon; simp at hcon
    · simp only [if_true, if_neg he]
      split_ifs
      all_goals
        refine ⟨rfl, ?_, ?_, ?_, ?_⟩
        · simp [hd, he]
        · intro hcon; simp [hd] at hcon
        · intro hcon; simp [hd] at hcon
        · intro _; rfl
  | false =>
    by_cases he : s.windowLeft - 10 < 0
    · simp only [Bool.false_eq_true, if_false, if_pos he]
      split_ifs
      all_goals
        refine ⟨rfl, ?_, ?_, ?_, ?_⟩
        · simp [he]
        · intro _; rfl
        · intro _ hsync
          exact map_flip_eq_invert s.g_gifs false (by simpa [hd] using hsync)
        · intro hcon; simp at hcon
    · simp only [Bool.false_eq_true, if_false, if_neg he]
      split_ifs
      all_goals
        refine ⟨rfl, ?_, ?_, ?_, ?_⟩
        · simp [hd, he]
        · intro hcon; simp [hd] at hcon
        · intro hcon; simp [hd] at hcon
        · intro _; rfl

/-- C7 (amended) for a window heading right that crosses the right screen edge. -/
theorem move_direction_flip_witness :
    (MoveWindow exAtRightEdge).windowLeft
        = (if exAtRightEdge.g_moveDirectionRight = true then exAtRightEdge.windowLeft + 10
            else exAtRightEdge.windowLeft - 10) ∧
    ((MoveWindow exAtRightEdge).g_moveDirectionRight ≠ exAtRightEdge.g_moveDirectionRight ↔
      (exAtRightEdge.g_moveDirectionRight = true ∧
          (MoveWindow exAtRightEdge).windowLeft + exAtRightEdge.windowWidth
            > exAtRightEdge.screenWidth) ∨
        (exAtRightEdge.g_moveDirectionRight = false ∧ (MoveWindow exAtRightEdge).windowLeft < 0)) ∧
    ((MoveWindow exAtRightEdge).g_moveDirectionRight ≠ exAtRightEdge.g_moveDirectionRight →
      (MoveWindow exAtRightEdge).g_gifs = exAtRightEdge.g_gifs.map (fun g =>
        if g.type = GifType.MOVE then
          { g with flipped := !(MoveWindow exAtRightEdge).g_moveDirectionRight }
        else g)) ∧
    ((MoveWindow exAtRightEdge).g_moveDirectionRight ≠ exAtRightEdge.g_moveDirectionRight →
      (∀ g ∈ exAtRightEdge.g_gifs, g.type = GifType.MOVE →
        g.flipped = !exAtRightEdge.g_moveDirectionRight) →
      (MoveWindow exAtRightEdge).g_gifs = exAtRightEdge.g_gifs.map (fun g =>
        if g.type = GifType.MOVE then { g with flipped := !g.flipped } else g)) ∧
    ((MoveWindow exAtRightEdge).g_moveDirectionRight = exAtRightEdge.g_moveDirectionRight →
      (MoveWindow exAtRightEdge).g_gifs = exAtRightEdge.g_gifs) :=
  move_direction_flip exAtRightEdge rfl

/-! ## Import -/

theorem loadEntries_directories (folderPath : List Nat) :
    ∀ (entries : List DirEntry) (gifs : List GifInfo),
      (∀ e ∈ entries, e.isDirectory = true) →
      loadEntries folderPath entries gifs = some gifs := by
  intro entries
  induction entries with
  | nil => intro gifs _; rfl
  | cons e rest ih =>
    intro gifs h
    unfold loadEntries
    simp only [h e (List.mem_cons_self _ _), Bool.true_eq_false, if_false]
    exact ih gifs (fun e1 he1 => h e1 (List.mem_cons_of_mem _ he1))

/-- The part of the import failure that the code handles: when the search finds nothing,
or only directories, `CleanupGifs` followed by `LoadGifsFromFolder` returns `false` and
leaves `g_gifs` empty, the frame queue empty, the cursor 0 and `g_hasGifs` false. -/
theorem import_without_files (s : App) (folderPath : List Nat) (entries : List DirEntry)
    (hdir : ∀ e ∈ entries, e.isDirectory = true) :
    ∃ s1, LoadGifsFromFolder folderPath entries (CleanupGifs s) = some (s1, false) ∧
      s1.g_gifs = [] ∧ s1.g_frameQueue = [] ∧ s1.g_currentFrameIndex = 0 ∧
      s1.g_hasGifs = false := by
  cases entries with
  | nil => exact ⟨CleanupGifs s, rfl, rfl, rfl, rfl, rfl⟩
  | cons e rest =>
    have hempty : loadEntries folderPath (e :: rest) (CleanupGifs s).g_gifs = some [] :=
      loadEntries_directories folderPath (e :: rest) (CleanupGifs s).g_gifs hdir
    unfold LoadGifsFromFolder
    simp only [hempty]
    exact ⟨_, rfl, rfl, rfl, rfl, rfl⟩

/-- C8 (the code departs from the claim): importing a folder whose only match is a file
without frame-delay data does not return `false`: the loader deletes the file's image
at the `continue` and `~GifAnimation` deletes it again, which is undefined behaviour
(no result in the model), for `LoadGifsFromFolder` and for the import command; the
same happens for a folder holding a directory and a file with two frame dimensions.
A folder holding only a directory is imported as claimed: `false`, empty catalog,
empty queue, cursor 0, `g_hasGifs` false. -/
theorem import_rejected_file_deleted_twice :
    (∀ e ∈ exStillFolder, LoadGifFrameInfo e.decoded = []) ∧
    (LoadGifsFromFolder (wstr "C:\\pets") exStillFolder (CleanupGifs exMoveWaitSit)).isSome
      = false ∧
    (WindowProc (Msg.WM_COMMAND (some (wstr "C:\\pets", exStillFolder)) 5000)
      exMoveWaitSit).isSome = false ∧
    (WindowProc (Msg.WM_COMMAND (some (wstr "C:\\pets", exBadFolder)) 5000)
      exMoveWaitSit).isSome = false ∧
    (LoadGifsFromFolder (wstr "C:\\pets") exDirectoryFolder (CleanupGifs exMoveWaitSit)).map
        (fun r => (r.2, r.1.g_gifs, r.1.g_frameQueue, r.1.g_currentFrameIndex, r.1.g_hasGifs))
      = some (false, [], [], 0, false) := by
  refine ⟨?_, ?_, ?_, ?_, ?_⟩ <;> decide

/-! ## Filename classification -/

theorem startsWith_iff (pat : List Nat) :
    ∀ (t : List Nat), startsWith pat t = true ↔ ∃ after, t = pat ++ after := by
  induction pat with
  | nil => intro t; simp [startsWith]
  | cons p ps ih =>
    intro t
    cases t with
    | nil => simp [startsWith]
    | cons c cs =>
      simp only [startsWith, Bool.and_eq_true, beq_iff_eq, ih cs, List.cons_append,
        List.cons.injEq]
      constructor
      · rintro ⟨hpc, after, hcs⟩
        exact ⟨after, hpc.symm, hcs⟩
      · rintro ⟨after, hpc, hcs⟩
        exact ⟨hpc.symm, after, hcs⟩

theorem wfind_iff (pat : List Nat) : ∀ (t : List Nat), wfind pat t = true ↔ Occurs pat t := by
  intro t
  induction t with
  | nil =>
    simp only [wfind, startsWith_iff, Occurs]
    constructor
    · rintro ⟨after, h⟩
      exact ⟨[], after, by simpa using h⟩
    · rintro ⟨before, after, h⟩
      have h1 : before = [] ∧ pat = [] ∧ after = [] := by
        simpa [List.append_eq_nil, and_assoc] using h.symm
      exact ⟨[], by simp [h1.2.1]⟩
  | cons c cs ih =>
    simp only [wfind, Bool.or_eq_true, startsWith_iff, ih, Occurs]
    constructor
    · rintro (⟨after, h⟩ | ⟨before, after, h⟩)
      · exact ⟨[], after, by simpa using h⟩
      · exact ⟨c :: before, after, by simp [h]⟩
    · rintro ⟨before, after, h⟩
      cases before with
      | nil => exact Or.inl ⟨after, by simpa using h⟩
      | cons b bs =>
        simp only [List.cons_append, List.cons.injEq] at h
        exact Or.inr ⟨bs, after, h.2⟩

theorem tolower_sameLetter {c d : Nat} (h : SameLetter c d) : tolower c = tolower d := by
  unfold tolower
  rcases h with h | ⟨h1, h2, h3⟩ | ⟨h1, h2, h3⟩
  · rw [h]
  · subst h3
    rw [if_pos ⟨h1, h2⟩, if_neg (by omega)]
  · subst h3
    rw [if_neg (by omega), if_pos ⟨h1, h2⟩]

theorem map_tolower_sameLetter {f f1 : List Nat} (h : List.Forall₂ SameLetter f f1) :
    f.map tolower = f1.map tolower := by
  induction h with
  | nil => rfl
  | cons hcd _ ih => simp only [List.map_cons, tolower_sameLetter hcd, ih]

/-- C9: for every filename `f`, `GetGifTypeFromFilename f` is decided by the lower-cased
name alone and follows the fixed priority: `MOVE` if it contains "move"; otherwise
`WAIT` if it contains "wait"; otherwise `SIT` if it contains "sit"; otherwise `PICK` if
it contains "pick"; otherwise `MISC`.  The result is `MISC` if and only if the
lower-cased name contains none of the four keywords, and a name that differs from `f`
only in the case of letters gets the same result. -/
theorem classification_priority (f : List Nat) :
    (Occurs kwMove (f.map tolower) → GetGifTypeFromFilename f = GifType.MOVE) ∧
    (¬Occurs kwMove (f.map tolower) → Occurs kwWait (f.map tolower) →
      GetGifTypeFromFilename f = GifType.WAIT) ∧
    (¬Occurs kwMove (f.map tolower) → ¬Occurs kwWait (f.map tolower) →
      Occurs kwSit (f.map tolower) → GetGifTypeFromFilename f = GifType.SIT) ∧
    (¬Occurs kwMove (f.map tolower) → ¬Occurs kwWait (f.map tolower) →
      ¬Occurs kwSit (f.map tolower) → Occurs kwPick (f.map tolower) →
      GetGifTypeFromFilename f = GifType.PICK) ∧
    (GetGifTypeFromFilename f = GifType.MISC ↔
      ¬Occurs kwMove (f.map tolower) ∧ ¬Occurs kwWait (f.map tolower) ∧
        ¬Occurs kwSit (f.map tolower) ∧ ¬Occurs kwPick (f.map tolower)) ∧
    (∀ f1, f1.map tolower = f.map tolower →
      GetGifTypeFromFilename f1 = GetGifTypeFromFilename f) ∧
    (∀ f1, List.Forall₂ SameLetter f f1 →
      GetGifTypeFromFilename f1 = GetGifTypeFromFilename f) := by
  have hlow : ∀ f1, f1.map tolower = f.map tolower →
      GetGifTypeFromFilename f1 = GetGifTypeFromFilename f := by
    intro f1 h
    unfold GetGifTypeFromFilename
    rw [h]
  refine ⟨?_, ?_, ?_, ?_, ?_, hlow, fun f1 h => hlow f1 (map_tolower_sameLetter h).symm⟩
  all_goals
    unfold GetGifTypeFromFilename
    simp only [← wfind_iff]
    cases wfind kwMove (f.map tolower) <;> cases wfind kwWait (f.map tolower) <;>
      cases wfind kwSit (f.map tolower) <;> cases wfind kwPick (f.map tolower) <;> simp

/-- C9 for a name that contains "sit" and "wait" in mixed case. -/
theorem classification_priority_witness :
    GetGifTypeFromFilename (wstr "My_SITting_Waiter.GIF") = GifType.WAIT ∧
    GetGifTypeFromFilename (wstr "my_sitting_waiter.gif")
      = GetGifTypeFromFilename (wstr "My_SITting_Waiter.GIF") :=
  ⟨(classification_priority (wstr "My_SITting_Waiter.GIF")).2.1
      (by rw [← wfind_iff]; decide) (by rw [← wfind_iff]; decide),
    (classification_priority (wstr "My_SITting_Waiter.GIF")).2.2.2.2.2.1
      (wstr "my_sitting_waiter.gif") (by decide)⟩

/-! ## Press without a pick-up asset -/

/-- C10 (the claim fails): with a catalog of a sit and a wait asset (no pick-up asset) and
the state `STATE_WAIT`, a press leaves `g_appState` at `STATE_PICK`, not at
`STATE_WAIT`. -/
theorem press_enters_pick_state_without_asset :
    exSitWait.g_gifs ≠ [] ∧ (∀ g ∈ exSitWait.g_gifs, g.type ≠ GifType.PICK) ∧
    exSitWait.g_appState = AppState.STATE_WAIT ∧
    (WindowProc Msg.WM_LBUTTONDOWN exSitWait).map App.g_appState = some AppState.STATE_PICK ∧
    (WindowProc Msg.WM_LBUTTONDOWN exSitWait).map App.g_appState
      ≠ some exSitWait.g_appState := by
  decide

/-- C10 (amended): for every non-empty catalog that contains no pick-up-category asset
and every current state `S`, a press still enters the picked-up state: afterwards
`g_appState` is `STATE_PICK`, `S` is saved in `g_prevState` and `g_isPickMode` is set;
only the asset activation is skipped, so that the frame queue, the cursor, the playback
timer and the catalog are unchanged. -/
theorem press_without_pick_asset (s : App) (hne : s.g_gifs ≠ [])
    (hnopick : ∀ g ∈ s.g_gifs, g.type ≠ GifType.PICK) :
    ∃ s1, WindowProc Msg.WM_LBUTTONDOWN s = some s1 ∧
      s1.g_appState = AppState.STATE_PICK ∧ s1.g_prevState = s.g_appState ∧
      s1.g_isPickMode = true ∧ s1.g_frameQueue = s.g_frameQueue ∧
      s1.g_currentFrameIndex = s.g_currentFrameIndex ∧ s1.animTimer = s.animTimer ∧
      s1.g_gifs = s.g_gifs := by
  simp only [WindowProc, onLButtonDown]
  rw [if_pos hne, (firstOfType_none_iff _ _).mpr hnopick]
  exact ⟨_, rfl, rfl, rfl, rfl, rfl, rfl, rfl, rfl⟩

/-- C10 (amended) on the catalog of one movement, one idle-wait and one sit asset. -/
theorem press_without_pick_asset_witness :
    ∃ s1, WindowProc Msg.WM_LBUTTONDOWN exMoveWaitSit = some s1 ∧
      s1.g_appState = AppState.STATE_PICK ∧ s1.g_prevState = exMoveWaitSit.g_appState ∧
      s1.g_isPickMode = true ∧ s1.g_frameQueue = exMoveWaitSit.g_frameQueue ∧
      s1.g_currentFrameIndex = exMoveWaitSit.g_currentFrameIndex ∧
      s1.animTimer = exMoveWaitSit.animTimer ∧ s1.g_gifs = exMoveWaitSit.g_gifs :=
  press_without_pick_asset exMoveWaitSit (by decide) (by decide)

/-! ## Well-formedness of what the loader and the transitions produce -/

theorem LoadGifFrameInfo_length (image : DecodedImage) (h : LoadGifFrameInfo image ≠ []) :
    (LoadGifFrameInfo image).length = image.frameCount := by
  unfold LoadGifFrameInfo at h ⊢
  split_ifs at h ⊢
  · exact absurd rfl h
  · exact absurd rfl h
  · exact absurd rfl h
  · simp

theorem loadEntries_wellFormed (folderPath : List Nat) :
    ∀ (entries : List DirEntry) (gifs gifs1 : List GifInfo),
      loadEntries folderPath entries gifs = some gifs1 → WellFormed gifs → WellFormed gifs1 := by
  intro entries
  induction entries with
  | nil =>
    intro gifs gifs1 hl h
    simp only [loadEntries, Option.some.injEq] at hl
    rw [← hl]; exact h
  | cons e rest ih =>
    intro gifs gifs1 hl h
    unfold loadEntries at hl
    by_cases hdir : e.isDirectory = false
    · rw [if_pos hdir] at hl
      dsimp only at hl
      by_cases hbad : LoadGifFrameInfo e.decoded = []
      · rw [if_pos hbad] at hl
        exact absurd hl (by simp)
      · rw [if_neg hbad] at hl
        apply ih _ gifs1 hl
        intro g hg
        rcases List.mem_append.mp hg with hold | hnew
        · exact h g hold
        · rw [List.mem_singleton] at hnew
          subst hnew
          exact ⟨le_of_eq (LoadGifFrameInfo_length e.decoded hbad).symm, hbad⟩
    · rw [if_neg hdir] at hl
      exact ih gifs gifs1 hl h

theorem loadEntries_some (folderPath : List Nat) :
    ∀ (entries : List DirEntry) (gifs : List GifInfo),
      (∀ e ∈ entries, e.isDirectory = true ∨ LoadGifFrameInfo e.decoded ≠ []) →
      ∃ gifs1, loadEntries folderPath entries gifs = some gifs1 := by
  intro entries
  induction entries with
  | nil => intro gifs _; exact ⟨gifs, rfl⟩
  | cons e rest ih =>
    intro gifs h
    have hrest : ∀ e1 ∈ rest, e1.isDirectory = true ∨ LoadGifFrameInfo e1.decoded ≠ [] :=
      fun e1 he1 => h e1 (List.mem_cons_of_mem _ he1)
    unfold loadEntries
    by_cases hdir : e.isDirectory = false
    · rw [if_pos hdir]
      dsimp only
      rcases h e (List.mem_cons_self _ _) with hd | hgood
      · rw [hdir] at hd
        exact absurd hd (by decide)
      · rw [if_neg hgood]
        exact ih _ hrest
    · rw [if_neg hdir]
      exact ih gifs hrest

theorem UpdateAppState_wellFormed (r : Draws) (s : App) (hwf : WellFormed s.g_gifs) :
    ∃ s1, UpdateAppState r s = some s1 ∧ WellFormed s1.g_gifs := by
  by_cases hne : s.g_gifs = []
  · exact ⟨s, by unfold UpdateAppState; rw [if_pos hne], hwf⟩
  · have hwf1 : WellFormed (applyDrawnState r s).g_gifs :=
      (applyDrawnState_sameAssets r s).wellFormed hwf
    rcases UpdateAppState_cases r s hne hwf with ⟨i, g, w, h, a, _, _, _, hq⟩ | ⟨_, a, hq⟩
    · exact ⟨_, hq, hwf1⟩
    · exact ⟨_, hq, hwf1⟩

theorem SwitchToNextGif_wellFormed (s : App) (hwf : WellFormed s.g_gifs) :
    ∃ s1, SwitchToNextGif s = some s1 ∧ s1.g_gifs = s.g_gifs := by
  by_cases hne : s.g_gifs = []
  · exact ⟨s, by unfold SwitchToNextGif; rw [if_pos hne], rfl⟩
  · rcases SwitchToNextGif_cases s hne hwf with ⟨i, g, w, h, a, _, _, _, hq⟩ | ⟨_, hq⟩
    · exact ⟨_, hq, advanceManualState_gifs s⟩
    · exact ⟨_, hq, advanceManualState_gifs s⟩

/-! ## Contents of a rebuilt queue -/

theorem expectedQueue_getElem? (gif : GifInfo) (p : Nat)
    (hp : p < FRAME_BUFFER_SIZE * gif.animation.frameCount) :
    (expectedQueue gif)[p]? = some (frameAt gif (p % gif.animation.frameCount)) := by
  unfold expectedQueue
  rw [List.getElem?_map, List.getElem?_range hp]
  rfl

theorem frameAt_delay (gif : GifInfo) (i : Nat) (hi : i < gif.animation.frameDelays.length) :
    ∃ d, gif.animation.frameDelays[i]? = some d ∧ (frameAt gif i).delay = max d MIN_FRAME_DELAY := by
  refine ⟨gif.animation.frameDelays[i], List.getElem?_eq_getElem hi, ?_⟩
  simp [frameAt, List.getElem?_eq_getElem hi]

/-- C14: for every valid asset index `g` whose asset has `frameCount` `n` and the frame
delays `d[0..n-1]`, `QueueFramesFromGif g` returns; afterwards the queue has `3 * n`
entries, the entry at every position `p < 3 * n` has `frameIndex = p mod n`,
`delay = max(d[p mod n], 16)`, `flipped` equal to the asset's flag at the time of the
call and `image` equal to the asset's image; the cursor is 0; the catalog (and every
global other than queue and cursor) is unchanged. -/
theorem queue_entries (s : App) (g : Nat) (gif : GifInfo)
    (hg : s.g_gifs[g]? = some gif)
    (hn : gif.animation.frameCount ≤ gif.animation.frameDelays.length) :
    ∃ s1, QueueFramesFromGif g s = some s1 ∧
      s1 = { s with g_frameQueue := s1.g_frameQueue, g_currentFrameIndex := 0 } ∧
      s1.g_currentFrameIndex = 0 ∧ s1.g_gifs = s.g_gifs ∧
      s1.g_frameQueue.length = 3 * gif.animation.frameCount ∧
      ∀ p, p < 3 * gif.animation.frameCount →
        ∃ f d, s1.g_frameQueue[p]? = some f ∧
          gif.animation.frameDelays[p % gif.animation.frameCount]? = some d ∧
          f.frameIndex = p % gif.animation.frameCount ∧
          f.delay = max d 16 ∧ f.flipped = gif.flipped ∧ f.image = gif.animation.image := by
  refine ⟨_, QueueFramesFromGif_eq s g gif hg hn, rfl, rfl, rfl, expectedQueue_length gif, ?_⟩
  intro p hp
  have hpos : 0 < gif.animation.frameCount := by omega
  have hlt : p % gif.animation.frameCount < gif.animation.frameDelays.length :=
    Nat.lt_of_lt_of_le (Nat.mod_lt _ hpos) hn
  obtain ⟨d, hd, hdelay⟩ := frameAt_delay gif (p % gif.animation.frameCount) hlt
  exact ⟨_, d, expectedQueue_getElem? gif p hp, hd, rfl, hdelay, rfl, rfl⟩

/-- C14 at asset 1 of a two-asset catalog: three frames, delays 0, 40 and 7. -/
theorem queue_entries_witness :
    ∃ s1, QueueFramesFromGif 1
        (exApp [exGif GifType.WAIT 1 [100, 5], exGif GifType.SIT 2 [0, 40, 7]]) = some s1 ∧
      s1 = { exApp [exGif GifType.WAIT 1 [100, 5], exGif GifType.SIT 2 [0, 40, 7]] with
             g_frameQueue := s1.g_frameQueue, g_currentFrameIndex := 0 } ∧
      s1.g_currentFrameIndex = 0 ∧
      s1.g_gifs = (exApp [exGif GifType.WAIT 1 [100, 5], exGif GifType.SIT 2 [0, 40, 7]]).g_gifs ∧
      s1.g_frameQueue.length = 3 * 3 ∧
      ∀ p, p < 3 * 3 →
        ∃ f d, s1.g_frameQueue[p]? = some f ∧
          [0, 40, 7][p % 3]? = some d ∧
          f.frameIndex = p % 3 ∧
          f.delay = max d 16 ∧ f.flipped = false ∧
          f.image = some { handle := 2, width := 120, height := 90 } :=
  queue_entries (exApp [exGif GifType.WAIT 1 [100, 5], exGif GifType.SIT 2 [0, 40, 7]]) 1
    (exGif GifType.SIT 2 [0, 40, 7]) rfl (by decide)

/-! ## Playback over the buffer passes -/

theorem run_fine_ticks_timer :
    ∀ (ms : List Msg) (s : App), s.g_frameQueue ≠ [] →
      (∀ m ∈ ms, ∃ r, m = Msg.WM_TIMER ANIMATION_TIMER_ID r) → ms ≠ [] →
      ∃ s1 f, run ms s = some s1 ∧ s1.g_frameQueue[s1.g_currentFrameIndex]? = some f ∧
        s1.animTimer = some (max f.delay MIN_FRAME_DELAY) := by
  intro ms
  induction ms with
  | nil => intro s _ _ h; exact absurd rfl h
  | cons m rest ih =>
    intro s hq hms _
    obtain ⟨r, rfl⟩ := hms m (List.mem_cons_self _ _)
    obtain ⟨f, hf, hstep⟩ := onTimer_animation r s hq
    by_cases hr : rest = []
    · subst hr
      refine ⟨{ s with g_currentFrameIndex := (s.g_currentFrameIndex + 1) % s.g_frameQueue.length
                       animTimer := some (max f.delay MIN_FRAME_DELAY) }, f, ?_, hf, rfl⟩
      simp only [run, WindowProc, hstep]
    · obtain ⟨s1, f1, hrun, hf1, ht1⟩ :=
        ih { s with g_currentFrameIndex := (s.g_currentFrameIndex + 1) % s.g_frameQueue.length
                    animTimer := some (max f.delay MIN_FRAME_DELAY) } hq
          (fun m hm => hms m (List.mem_cons_of_mem _ hm)) hr
      exact ⟨s1, f1, by simp only [run, WindowProc, hstep]; exact hrun, hf1, ht1⟩

theorem run_fine_ticks_from_zero (ms : List Msg) (s : App) (hq : s.g_frameQueue ≠ [])
    (h0 : s.g_currentFrameIndex = 0)
    (hms : ∀ m ∈ ms, ∃ r, m = Msg.WM_TIMER ANIMATION_TIMER_ID r) :
    ∃ s1, run ms s = some s1 ∧ s1.g_frameQueue = s.g_frameQueue ∧
      s1.g_currentFrameIndex = ms.length % s.g_frameQueue.length := by
  obtain ⟨s1, hrun, hqueue, hcur, hlt⟩ := run_fine_ticks ms s hq hms
  refine ⟨s1, hrun, hqueue, ?_⟩
  by_cases hnil : ms = []
  · subst hnil
    simp only [run, Option.some.injEq] at hrun
    subst hrun
    simp [h0]
  · rw [h0, Nat.zero_add] at hcur
    rw [← hcur, Nat.mod_eq_of_lt (hlt hnil)]

/-- C17: for every asset with `frameCount` `n > 0` (and its `n` frame delays `d`) and
every number `N`, `QueueFramesFromGif` on that asset followed by `N` fine ticks is
handled to the end; the queue entry at the cursor then has `frameIndex = N mod n` and
the stored delay `max(d[N mod n], 16)`; and for `N >= 1` the playback timer is left
armed with `max(entry.delay, 16)`, which equals that stored delay. -/
theorem playback_ignores_buffer_passes (s : App) (g : Nat) (gif : GifInfo) (ms : List Msg)
    (hg : s.g_gifs[g]? = some gif) (hpos : 0 < gif.animation.frameCount)
    (hn : gif.animation.frameCount ≤ gif.animation.frameDelays.length)
    (hms : ∀ m ∈ ms, ∃ r, m = Msg.WM_TIMER ANIMATION_TIMER_ID r) :
    ∃ s0 s1 f d, QueueFramesFromGif g s = some s0 ∧ run ms s0 = some s1 ∧
      s1.g_frameQueue[s1.g_currentFrameIndex]? = some f ∧
      f.frameIndex = ms.length % gif.animation.frameCount ∧
      gif.animation.frameDelays[ms.length % gif.animation.frameCount]? = some d ∧
      f.delay = max d 16 ∧
      (ms ≠ [] → s1.animTimer = some (max f.delay 16) ∧ max f.delay 16 = max d 16) := by
  have hq : (expectedQueue gif) ≠ [] := by
    apply List.ne_nil_of_length_pos
    rw [expectedQueue_length]
    exact Nat.mul_pos (by decide) hpos
  obtain ⟨s1, hrun, hqueue, hcur⟩ := run_fine_ticks_from_zero ms
    { s with g_frameQueue := expectedQueue gif, g_currentFrameIndex := 0 } hq rfl hms
  have hqueue1 : s1.g_frameQueue = expectedQueue gif := hqueue
  have hcur1 : s1.g_currentFrameIndex
      = ms.length % (FRAME_BUFFER_SIZE * gif.animation.frameCount) := by
    rw [hcur]
    show ms.length % (expectedQueue gif).length = _
    rw [expectedQueue_length]
  have hlt : s1.g_currentFrameIndex < FRAME_BUFFER_SIZE * gif.animation.frameCount := by
    rw [hcur1]
    exact Nat.mod_lt _ (Nat.mul_pos (by decide) hpos)
  have hmod : s1.g_currentFrameIndex % gif.animation.frameCount
      = ms.length % gif.animation.frameCount := by
    rw [hcur1]
    exact Nat.mod_mod_of_dvd _ (Dvd.intro_left _ rfl)
  have hentry : s1.g_frameQueue[s1.g_currentFrameIndex]?
      = some (frameAt gif (ms.length % gif.animation.frameCount)) := by
    rw [hqueue1, expectedQueue_getElem? gif _ hlt, hmod]
  obtain ⟨d, hd, hdelay⟩ := frameAt_delay gif (ms.length % gif.animation.frameCount)
    (Nat.lt_of_lt_of_le (Nat.mod_lt _ hpos) hn)
  refine ⟨_, s1, _, d, QueueFramesFromGif_eq s g gif hg hn, hrun, hentry, rfl, hd, hdelay, ?_⟩
  intro hne
  obtain ⟨s2, f2, hrun2, hf2, ht2⟩ := run_fine_ticks_timer ms
    { s with g_frameQueue := expectedQueue gif, g_currentFrameIndex := 0 } hq hms hne
  rw [hrun, Option.some.injEq] at hrun2
  subst hrun2
  rw [hentry, Option.some.injEq] at hf2
  subst hf2
  refine ⟨ht2, ?_⟩
  rw [hdelay]
  simp [MIN_FRAME_DELAY]

/-- C17 for four fine ticks on the queue of a three-frame asset. -/
theorem playback_ignores_buffer_passes_witness :
    ∃ s0 s1 f d, QueueFramesFromGif 1
        (exApp [exGif GifType.WAIT 1 [100, 5], exGif GifType.SIT 2 [0, 40, 7]]) = some s0 ∧
      run (List.replicate 4 (Msg.WM_TIMER ANIMATION_TIMER_ID exDraws)) s0 = some s1 ∧
      s1.g_frameQueue[s1.g_currentFrameIndex]? = some f ∧
      f.frameIndex = 4 % 3 ∧
      [0, 40, 7][4 % 3]? = some d ∧
      f.delay = max d 16 ∧
      (List.replicate 4 (Msg.WM_TIMER ANIMATION_TIMER_ID exDraws) ≠ [] →
        s1.animTimer = some (max f.delay 16) ∧ max f.delay 16 = max d 16) :=
  playback_ignores_buffer_passes
    (exApp [exGif GifType.WAIT 1 [100, 5], exGif GifType.SIT 2 [0, 40, 7]]) 1
    (exGif GifType.SIT 2 [0, 40, 7])
    (List.replicate 4 (Msg.WM_TIMER ANIMATION_TIMER_ID exDraws))
    rfl (by decide) (by decide) (fun m hm => ⟨exDraws, List.eq_of_mem_replicate hm⟩)

/-! ## Dragging -/

/-- C18: while the pet is picked up the drag handler keeps the window within the screen:
for all integers `px`, `py` (cursor), `w`, `h` (window size) and `sw`, `sh` (screen
size) with `0 <= w <= sw` and `0 <= h <= sh`, the position the handler computes,
`newX = max(0, min(px - w/2, sw - w))` and `newY = max(0, min(py - h/2, sh - h))`,
satisfies `0 <= newX`, `newX + w <= sw`, `0 <= newY` and `newY + h <= sh`; and
`WM_MOUSEMOVE` in pick mode sets the window to that position for the cursor at
`(x + windowLeft, y + windowTop)`. -/
theorem drag_keeps_window_on_screen (px py w h sw sh : Int)
    (hw0 : 0 ≤ w) (hw : w ≤ sw) (hh0 : 0 ≤ h) (hh : h ≤ sh) :
    dragClamp px w sw = max 0 (min (px - w / 2) (sw - w)) ∧
    dragClamp py h sh = max 0 (min (py - h / 2) (sh - h)) ∧
    0 ≤ dragClamp px w sw ∧ dragClamp px w sw + w ≤ sw ∧
    0 ≤ dragClamp py h sh ∧ dragClamp py h sh + h ≤ sh ∧
    ∀ (s : App) (x y : Int), s.g_isPickMode = true →
      s.windowWidth = w → s.windowHeight = h → s.screenWidth = sw → s.screenHeight = sh →
      (onMouseMove x y s).windowLeft = dragClamp (x + s.windowLeft) w sw ∧
      (onMouseMove x y s).windowTop = dragClamp (y + s.windowTop) h sh ∧
      (onMouseMove x y s).windowWidth = w ∧ (onMouseMove x y s).windowHeight = h ∧
      (onMouseMove x y s).screenWidth = sw ∧ (onMouseMove x y s).screenHeight = sh := by
  have hx : dragClamp px w sw = max 0 (min (px - w / 2) (sw - w)) := by
    unfold dragClamp
    rw [Int.tdiv_eq_ediv hw0 (by decide)]
  have hy : dragClamp py h sh = max 0 (min (py - h / 2) (sh - h)) := by
    unfold dragClamp
    rw [Int.tdiv_eq_ediv hh0 (by decide)]
  refine ⟨hx, hy, ?_, ?_, ?_, ?_, ?_⟩
  · rw [hx]; exact le_max_left _ _
  · rw [hx]
    have h1 : min (px - w / 2) (sw - w) ≤ sw - w := min_le_right _ _
    have h2 : max 0 (min (px - w / 2) (sw - w)) ≤ sw - w := max_le (by omega) h1
    omega
  · rw [hy]; exact le_max_left _ _
  · rw [hy]
    have h1 : min (py - h / 2) (sh - h) ≤ sh - h := min_le_right _ _
    have h2 : max 0 (min (py - h / 2) (sh - h)) ≤ sh - h := max_le (by omega) h1
    omega
  · intro s x y hpick hsw hsh hscw hsch
    unfold onMouseMove
    rw [if_pos hpick]
    subst hsw hsh hscw hsch
    exact ⟨rfl, rfl, rfl, rfl, rfl, rfl⟩

/-- C18 for a window of 121 x 90 on a 1920 x 1080 screen with the cursor far to the
right and above the screen. -/
theorem drag_keeps_window_on_screen_witness :
    dragClamp 5000 121 1920 = max 0 (min (5000 - 121 / 2) (1920 - 121)) ∧
    dragClamp (-40) 90 1080 = max 0 (min (-40 - 90 / 2) (1080 - 90)) ∧
    0 ≤ dragClamp 5000 121 1920 ∧ dragClamp 5000 121 1920 + 121 ≤ 1920 ∧
    0 ≤ dragClamp (-40) 90 1080 ∧ dragClamp (-40) 90 1080 + 90 ≤ 1080 ∧
    ∀ (s : App) (x y : Int), s.g_isPickMode = true →
      s.windowWidth = 121 → s.windowHeight = 90 → s.screenWidth = 1920 →
      s.screenHeight = 1080 →
      (onMouseMove x y s).windowLeft = dragClamp (x + s.windowLeft) 121 1920 ∧
      (onMouseMove x y s).windowTop = dragClamp (y + s.windowTop) 90 1080 ∧
      (onMouseMove x y s).windowWidth = 121 ∧ (onMouseMove x y s).windowHeight = 90 ∧
      (onMouseMove x y s).screenWidth = 1920 ∧ (onMouseMove x y s).screenHeight = 1080 :=
  drag_keeps_window_on_screen 5000 (-40) 121 90 1920 1080
    (by decide) (by decide) (by decide) (by decide)

/-! ## The full manual cycle -/

theorem SwitchToNextGif_to (s : App) (t : AppState) (hwf : WellFormed s.g_gifs)
    (hadv : (advanceManualState s).g_appState = t)
    (hex : ∃ g ∈ s.g_gifs, g.type = lookupCategory t) :
    ∃ s1, SwitchToNextGif s = some s1 ∧ s1.g_appState = t ∧ s1.g_gifs = s.g_gifs ∧
      FedByFirst (lookupCategory t) s1 := by
  have hne : s.g_gifs ≠ [] := by
    obtain ⟨g, hg, _⟩ := hex
    exact List.ne_nil_of_mem hg
  have hgifs := advanceManualState_gifs s
  rcases SwitchToNextGif_cases s hne hwf with ⟨i, g, w, h, a, hf, hg, _, hq⟩ | ⟨hnone, _⟩
  · rw [hadv] at hf
    refine ⟨_, hq, hadv, hgifs, i, g, ?_, ?_, rfl, rfl⟩
    · show firstOfType (lookupCategory t) (advanceManualState s).g_gifs = some i
      rw [hgifs]; exact hf
    · show (advanceManualState s).g_gifs[i]? = some g
      rw [hgifs]; exact hg
  · obtain ⟨g, hg, ht⟩ := hex
    rw [hadv] at hnone
    exact absurd ht (hnone g hg)

theorem advanceManualState_of_move (s : App) (h : s.g_appState = AppState.STATE_MOVE) :
    (advanceManualState s).g_appState = AppState.STATE_WAIT := by
  unfold advanceManualState
  simp [h]

theorem advanceManualState_of_single_misc (s : App) (h : s.g_appState = AppState.STATE_MISC)
    (hone : countOfType GifType.MISC s.g_gifs = 1) :
    (advanceManualState s).g_appState = AppState.STATE_MOVE := by
  unfold advanceManualState
  simp [h, hone]

theorem exists_of_countOfType_pos (t : GifType) (gifs : List GifInfo)
    (h : 0 < countOfType t gifs) : ∃ g ∈ gifs, g.type = t := by
  by_contra hcon
  have hzero : countOfType t gifs = 0 :=
    (countOfType_eq_zero_iff t gifs).mpr (fun g hg ht => hcon ⟨g, hg, ht⟩)
  omega

/-- C13: for every (well-formed) catalog containing at least one movement, one idle-wait
and one sit asset and exactly one misc asset, four successive manual cycle requests
starting in `STATE_MOVE` all return and visit `STATE_WAIT`, `STATE_SIT`, `STATE_MISC`
and then `STATE_MOVE` again, in that order; after each request the frame queue is the
queue of the first catalog asset of the new state's category and the cursor is 0. -/
theorem manual_cycle_full_round (s : App) (hwf : WellFormed s.g_gifs)
    (hstate : s.g_appState = AppState.STATE_MOVE)
    (hmove : ∃ g ∈ s.g_gifs, g.type = GifType.MOVE)
    (hwait : ∃ g ∈ s.g_gifs, g.type = GifType.WAIT)
    (hsit : ∃ g ∈ s.g_gifs, g.type = GifType.SIT)
    (hmisc : countOfType GifType.MISC s.g_gifs = 1) :
    ∃ s1 s2 s3 s4,
      SwitchToNextGif s = some s1 ∧ s1.g_appState = AppState.STATE_WAIT ∧
        FedByFirst GifType.WAIT s1 ∧
      SwitchToNextGif s1 = some s2 ∧ s2.g_appState = AppState.STATE_SIT ∧
        FedByFirst GifType.SIT s2 ∧
      SwitchToNextGif s2 = some s3 ∧ s3.g_appState = AppState.STATE_MISC ∧
        FedByFirst GifType.MISC s3 ∧
      SwitchToNextGif s3 = some s4 ∧ s4.g_appState = AppState.STATE_MOVE ∧
        FedByFirst GifType.MOVE s4 ∧
      s4.g_gifs = s.g_gifs := by
  have hmiscEx : ∃ g ∈ s.g_gifs, g.type = GifType.MISC :=
    exists_of_countOfType_pos _ _ (by omega)
  obtain ⟨s1, h1, hs1, hg1, hf1⟩ := SwitchToNextGif_to s AppState.STATE_WAIT hwf
    (advanceManualState_of_move s hstate) hwait
  obtain ⟨s2, h2, hs2, hg2, hf2⟩ := SwitchToNextGif_to s1 AppState.STATE_SIT
    (by rw [hg1]; exact hwf) (advanceManualState_of_wait s1 hs1) (by rw [hg1]; exact hsit)
  obtain ⟨s3, h3, hs3, hg3, hf3⟩ := SwitchToNextGif_to s2 AppState.STATE_MISC
    (by rw [hg2, hg1]; exact hwf) (advanceManualState_of_sit s2 hs2)
    (by rw [hg2, hg1]; exact hmiscEx)
  obtain ⟨s4, h4, hs4, hg4, hf4⟩ := SwitchToNextGif_to s3 AppState.STATE_MOVE
    (by rw [hg3, hg2, hg1]; exact hwf)
    (advanceManualState_of_single_misc s3 hs3 (by rw [hg3, hg2, hg1]; exact hmisc))
    (by rw [hg3, hg2, hg1]; exact hmove)
  exact ⟨s1, s2, s3, s4, h1, hs1, hf1, h2, hs2, hf2, h3, hs3, hf3, h4, hs4, hf4,
    by rw [hg4, hg3, hg2, hg1]⟩

/-- C13 on a catalog of six assets with two sit assets and one misc asset. -/
theorem manual_cycle_full_round_witness :
    ∃ s1 s2 s3 s4,
      SwitchToNextGif exAllKinds = some s1 ∧ s1.g_appState = AppState.STATE_WAIT ∧
        FedByFirst GifType.WAIT s1 ∧
      SwitchToNextGif s1 = some s2 ∧ s2.g_appState = AppState.STATE_SIT ∧
        FedByFirst GifType.SIT s2 ∧
      SwitchToNextGif s2 = some s3 ∧ s3.g_appState = AppState.STATE_MISC ∧
        FedByFirst GifType.MISC s3 ∧
      SwitchToNextGif s3 = some s4 ∧ s4.g_appState = AppState.STATE_MOVE ∧
        FedByFirst GifType.MOVE s4 ∧
      s4.g_gifs = exAllKinds.g_gifs :=
  manual_cycle_full_round exAllKinds (by decide) rfl (by decide) (by decide) (by decide) rfl

/-! ## Playback timer after a transition -/

/-- C11 (the code departs from the claim): after importing `wait.gif` (100 ms per frame,
asset 0) and `sit.gif` (250 ms per frame), an automatic tick that draws `STATE_SIT`
activates the sit asset, whose first-frame delay is entry 0's delay 250, and leaves
the playback timer armed with 100, the first-frame delay of asset 0: `UpdateAppState`
arms the timer with `g_frameQueue[0].delay` and then calls `StartStateTimer`, which
kills it and arms it from `g_gifs[g_currentGifIndex]`. -/
theorem playback_timer_after_automatic_tick :
    (run exTickToSit (App.initial 1920 1080)).map
        (fun s => (s.g_appState, queueHandles s, s.g_currentGifIndex,
          s.g_frameQueue.head?.map FrameInfo.delay, s.animTimer))
      = some (AppState.STATE_SIT, [some 2, some 2, some 2, some 2, some 2, some 2], 0,
          some 250, some 100) := by
  decide

/-! ## Misc variants -/

/-- C12 (the code departs from the claim): with two misc assets `a.gif` (image 3) and
`b.gif` (image 4) and the machine in `STATE_MISC` with variant index 0, a manual cycle
request stays in `STATE_MISC` and sets the variant index to 1, and the rebuilt queue
is fed by the first misc asset (image 3) again, not by the misc asset number 1
(image 4). -/
theorem misc_variant_index_not_used :
    (run exCycleToMisc (App.initial 1920 1080)).map
        (fun s => (s.g_appState, s.g_miscGifIndex, countOfType GifType.MISC s.g_gifs))
      = some (AppState.STATE_MISC, 0, 2) ∧
    (run exCycleToMisc (App.initial 1920 1080)).map queueHandles
      = some [some 3, some 3, some 3] ∧
    ((run exCycleToMisc (App.initial 1920 1080)).bind SwitchToNextGif).map
        (fun s => (s.g_appState, s.g_miscGifIndex, s.g_currentFrameIndex))
      = some (AppState.STATE_MISC, 1, 0) ∧
    ((run exCycleToMisc (App.initial 1920 1080)).bind SwitchToNextGif).map queueHandles
      = some [some 3, some 3, some 3] ∧
    ((run exCycleToMisc (App.initial 1920 1080)).bind SwitchToNextGif).map
        (fun s => ((s.g_gifs.filter (fun g => g.type = GifType.MISC)).map
          (fun g => g.animation.image.map Image.handle)))
      = some [some 3, some 4] := by
  refine ⟨?_, ?_, ?_, ?_, ?_⟩ <;> decide

/-! ## Aborted move -/

theorem setFlipped_of_none (t : GifType) (v : Bool) (gifs : List GifInfo)
    (h : ∀ g ∈ gifs, g.type ≠ t) : setFlipped t v gifs = gifs := by
  unfold setFlipped
  conv_rhs => rw [← List.map_id gifs]
  apply List.map_congr_left
  intro g hg
  simp [h g hg]

theorem applyDrawnState_move (r : Draws) (s : App) (hdraw : r.nextState = 0)
    (hnomove : ∀ g ∈ s.g_gifs, g.type ≠ GifType.MOVE) :
    (applyDrawnState r s).g_appState = AppState.STATE_MOVE ∧
    (applyDrawnState r s).g_frameQueue = s.g_frameQueue ∧
    (applyDrawnState r s).g_currentFrameIndex = s.g_currentFrameIndex ∧
    (applyDrawnState r s).g_gifs = s.g_gifs ∧
    (applyDrawnState r s).windowLeft
      = (if r.dir = 1 then s.windowLeft + 10 else s.windowLeft - 10) ∧
    (applyDrawnState r s).g_moveDirectionRight
      = (if r.dir = 1 then decide (¬ s.windowLeft + 10 + s.windowWidth > s.screenWidth)
          else decide (s.windowLeft - 10 < 0)) := by
  have hset : ∀ v, setFlipped GifType.MOVE v s.g_gifs = s.g_gifs :=
    fun v => setFlipped_of_none _ v _ hnomove
  unfold applyDrawnState
  simp only [hdraw]
  unfold MoveWindow
  dsimp only
  simp only [hset, ne_eq, not_true_eq_false, if_false]
  by_cases hd : r.dir = 1
  · simp only [hd, decide_True, if_true]
    by_cases he : s.windowLeft + 10 + s.windowWidth > s.screenWidth
    · simp only [he, if_true]
      split_ifs <;> simp
    · simp only [he, if_false]
      split_ifs <;> simp
  · simp only [hd, decide_False, if_false, Bool.false_eq_true]
    by_cases he : s.windowLeft - 10 < 0
    · simp only [he, if_true]
      split_ifs <;> simp
    · simp only [he, if_false]
      split_ifs <;> simp

/-- C16 (the claim fails): after importing `wait.gif` alone the catalog has no movement
asset, the state is `STATE_WAIT`, the pet heads right and the window is at x = 100; an
automatic tick that draws `STATE_MOVE` heading left is aborted, the state is
`STATE_WAIT` again and the queue and the cursor are as before, but the direction is
now left and the window is at x = 90. -/
theorem aborted_move_still_moves_window :
    (run [exImportWait] (App.initial 1920 1080)).map
        (fun s => (s.g_appState, countOfType GifType.MOVE s.g_gifs, s.g_moveDirectionRight,
          s.windowLeft))
      = some (AppState.STATE_WAIT, 0, true, 100) ∧
    (run [exImportWait, Msg.WM_TIMER TIMER_ID exDrawsLeft] (App.initial 1920 1080)).map
        (fun s => (s.g_appState, s.g_moveDirectionRight, s.windowLeft))
      = some (AppState.STATE_WAIT, false, 90) ∧
    (run [exImportWait, Msg.WM_TIMER TIMER_ID exDrawsLeft] (App.initial 1920 1080)).map
        (fun s => (s.g_frameQueue, s.g_currentFrameIndex))
      = (run [exImportWait] (App.initial 1920 1080)).map
        (fun s => (s.g_frameQueue, s.g_currentFrameIndex)) := by
  refine ⟨?_, ?_, ?_⟩ <;> decide

/-- C16 (amended): for every non-empty (well-formed) catalog with no movement-category
asset and every state, an automatic tick that draws `STATE_MOVE` returns and leaves the
mood state, the frame queue, the cursor and the catalog unchanged; the movement is not
undone: the window is moved 10 units in the drawn direction, and
`g_moveDirectionRight` is the drawn direction, reversed if the new position crosses the
screen edge ahead. -/
theorem aborted_move_tick (s : App) (r : Draws) (hne : s.g_gifs ≠ [])
    (hwf : WellFormed s.g_gifs) (hnomove : ∀ g ∈ s.g_gifs, g.type ≠ GifType.MOVE)
    (hdraw : r.nextState = 0) :
    ∃ s1, UpdateAppState r s = some s1 ∧
      s1.g_appState = s.g_appState ∧ s1.g_frameQueue = s.g_frameQueue ∧
      s1.g_currentFrameIndex = s.g_currentFrameIndex ∧ s1.g_gifs = s.g_gifs ∧
      s1.windowLeft = (if r.dir = 1 then s.windowLeft + 10 else s.windowLeft - 10) ∧
      s1.g_moveDirectionRight
        = (if r.dir = 1 then decide (¬ s.windowLeft + 10 + s.windowWidth > s.screenWidth)
            else decide (s.windowLeft - 10 < 0)) := by
  obtain ⟨hst, hq, hc, hg, hx, hdir⟩ := applyDrawnState_move r s hdraw hnomove
  rcases UpdateAppState_cases r s hne hwf with ⟨i, g, w, h, a, _, hgi, ht, _⟩ | ⟨_, a, hrun⟩
  · rw [hst] at ht
    rw [hg] at hgi
    exact absurd ht (hnomove g (List.getElem?_mem hgi))
  · exact ⟨_, hrun, rfl, hq, hc, hg, hx, hdir⟩

/-- C16 (amended) in `STATE_WAIT` with a wait and a sit asset and a draw to the left. -/
theorem aborted_move_tick_witness :
    ∃ s1, UpdateAppState exDrawsLeft exSitWait = some s1 ∧
      s1.g_appState = exSitWait.g_appState ∧ s1.g_frameQueue = exSitWait.g_frameQueue ∧
      s1.g_currentFrameIndex = exSitWait.g_currentFrameIndex ∧
      s1.g_gifs = exSitWait.g_gifs ∧
      s1.windowLeft = (if exDrawsLeft.dir = 1 then exSitWait.windowLeft + 10
        else exSitWait.windowLeft - 10) ∧
      s1.g_moveDirectionRight
        = (if exDrawsLeft.dir = 1 then
            decide (¬ exSitWait.windowLeft + 10 + exSitWait.windowWidth > exSitWait.screenWidth)
          else decide (exSitWait.windowLeft - 10 < 0)) :=
  aborted_move_tick exSitWait exDrawsLeft (by decide) (by decide) (by decide) rfl

/-! ## The playback invariant -/

theorem queueInv_rebuilt (s1 : App) (g : GifInfo) (hmem : g ∈ s1.g_gifs)
    (hq : s1.g_frameQueue = expectedQueue g) (hc : s1.g_currentFrameIndex = 0) :
    QueueInv s1 := by
  intro hne
  refine ⟨?_, g, hmem, ?_⟩
  · rw [hc]
    exact List.length_pos.mpr hne
  · rw [hq]
    exact expectedQueue_image g

theorem SameAssets.exists_animation {a b : List GifInfo} (h : SameAssets a b) {g : GifInfo}
    (hg : g ∈ b) : ∃ g1 ∈ a, g1.animation = g.animation := by
  have hmem : (g.filePath, g.type, g.animation) ∈
      a.map (fun g => (g.filePath, g.type, g.animation)) := by
    rw [h]; exact List.mem_map_of_mem _ hg
  obtain ⟨g1, hg1, heq⟩ := List.mem_map.mp hmem
  simp only [Prod.mk.injEq] at heq
  exact ⟨g1, hg1, heq.2.2⟩

theorem queueInv_same (s s1 : App) (hq : s1.g_frameQueue = s.g_frameQueue)
    (hc : s1.g_currentFrameIndex = s.g_currentFrameIndex)
    (hsame : SameAssets s1.g_gifs s.g_gifs) (hinv : QueueInv s) : QueueInv s1 := by
  intro hne
  rw [hq] at hne
  obtain ⟨hlt, g, hg, himg⟩ := hinv hne
  obtain ⟨g1, hg1, hanim⟩ := hsame.exists_animation hg
  rw [hq, hc]
  exact ⟨hlt, g1, hg1, fun f hf => by rw [hanim]; exact himg f hf⟩

theorem queueInv_of_empty (s : App) (hq : s.g_frameQueue = []) : QueueInv s :=
  fun hne => absurd hq hne

theorem MoveWindow_queue (s : App) :
    (MoveWindow s).g_frameQueue = s.g_frameQueue ∧
      (MoveWindow s).g_currentFrameIndex = s.g_currentFrameIndex := by
  unfold MoveWindow
  dsimp only
  split_ifs <;> exact ⟨rfl, rfl⟩

theorem applyDrawnState_queue (r : Draws) (s : App) :
    (applyDrawnState r s).g_frameQueue = s.g_frameQueue ∧
      (applyDrawnState r s).g_currentFrameIndex = s.g_currentFrameIndex := by
  unfold applyDrawnState
  split
  · exact MoveWindow_queue _
  · exact ⟨rfl, rfl⟩
  · exact ⟨rfl, rfl⟩
  · simp only []
    split_ifs <;> exact ⟨rfl, rfl⟩
  · exact ⟨rfl, rfl⟩

theorem advanceManualState_queue (s : App) :
    (advanceManualState s).g_frameQueue = s.g_frameQueue ∧
      (advanceManualState s).g_currentFrameIndex = s.g_currentFrameIndex := by
  unfold advanceManualState
  simp only []
  split_ifs <;> exact ⟨rfl, rfl⟩

theorem UpdateAppState_queueInv (r : Draws) (s : App) (hwf : WellFormed s.g_gifs)
    (hinv : QueueInv s) :
    ∃ s1, UpdateAppState r s = some s1 ∧ WellFormed s1.g_gifs ∧ QueueInv s1 := by
  by_cases hne : s.g_gifs = []
  · exact ⟨s, by unfold UpdateAppState; rw [if_pos hne], hwf, hinv⟩
  · have hsame := applyDrawnState_sameAssets r s
    have hwf1 : WellFormed (applyDrawnState r s).g_gifs := hsame.wellFormed hwf
    have hqc := applyDrawnState_queue r s
    rcases UpdateAppState_cases r s hne hwf with ⟨i, g, w, h, a, _, hg, _, hq⟩ | ⟨_, a, hq⟩
    · exact ⟨_, hq, hwf1, queueInv_rebuilt _ g (List.getElem?_mem hg) rfl rfl⟩
    · exact ⟨_, hq, hwf1, queueInv_same s _ hqc.1 hqc.2 hsame hinv⟩

theorem SwitchToNextGif_queueInv (s : App) (hwf : WellFormed s.g_gifs) (hinv : QueueInv s) :
    ∃ s1, SwitchToNextGif s = some s1 ∧ WellFormed s1.g_gifs ∧ QueueInv s1 := by
  by_cases hne : s.g_gifs = []
  · exact ⟨s, by unfold SwitchToNextGif; rw [if_pos hne], hwf, hinv⟩
  · have hgifs := advanceManualState_gifs s
    have hwf1 : WellFormed (advanceManualState s).g_gifs := by rw [hgifs]; exact hwf
    have hqc := advanceManualState_queue s
    rcases SwitchToNextGif_cases s hne hwf with ⟨i, g, w, h, a, _, hg, _, hq⟩ | ⟨_, hq⟩
    · refine ⟨_, hq, hwf1, queueInv_rebuilt _ g ?_ rfl rfl⟩
      show g ∈ (advanceManualState s).g_gifs
      rw [hgifs]; exact List.getElem?_mem hg
    · refine ⟨_, hq, hwf1, queueInv_same s _ hqc.1 hqc.2 ?_ hinv⟩
      show SameAssets (advanceManualState s).g_gifs s.g_gifs
      rw [hgifs]; exact rfl

theorem LoadGifsFromFolder_queueInv (folderPath : List Nat) (entries : List DirEntry)
    (s : App) (hwf : WellFormed s.g_gifs) (hempty : s.g_frameQueue = []) :
    (loadEntries folderPath entries s.g_gifs = none ∧
        LoadGifsFromFolder folderPath entries s = none) ∨
    ∃ s1 ok, LoadGifsFromFolder folderPath entries s = some (s1, ok) ∧
      WellFormed s1.g_gifs ∧ QueueInv s1 := by
  cases entries with
  | nil => exact Or.inr ⟨s, false, rfl, hwf, queueInv_of_empty s hempty⟩
  | cons e rest =>
    unfold LoadGifsFromFolder
    dsimp only
    cases hle : loadEntries folderPath (e :: rest) s.g_gifs with
    | none => exact Or.inl ⟨rfl, rfl⟩
    | some gifs =>
      right
      have hload : WellFormed gifs :=
        loadEntries_wellFormed folderPath (e :: rest) s.g_gifs gifs hle hwf
      dsimp only
      cases gifs with
      | nil =>
        exact ⟨_, _, rfl, by intro g hg1; simp at hg1, queueInv_of_empty _ hempty⟩
      | cons g0 tail =>
        dsimp only
        by_cases himg : g0.animation.image ≠ none
        · rw [if_pos himg]
          rw [QueueFramesFromGif_eq _ 0 g0 (by simp) (hload g0 (List.mem_cons_self _ _)).1]
          obtain ⟨w, h, hr⟩ := ResizeWindowToGif_eq g0.animation.image
            { s with g_gifs := g0 :: tail, g_hasGifs := !(g0 :: tail).isEmpty
                     g_frameQueue := expectedQueue g0, g_currentFrameIndex := 0 }
          obtain ⟨a, ha⟩ := armAnimationTimer_eq
            { s with g_gifs := g0 :: tail, g_hasGifs := !(g0 :: tail).isEmpty
                     g_frameQueue := expectedQueue g0, g_currentFrameIndex := 0
                     windowWidth := w, windowHeight := h }
          dsimp only
          rw [hr, ha]
          exact ⟨_, _, rfl, hload, queueInv_rebuilt _ g0 (List.mem_cons_self _ _) rfl rfl⟩
        · rw [if_neg himg]
          exact ⟨_, _, rfl, hload, queueInv_of_empty _ hempty⟩

theorem onImport_queueInv (folder : Option (List Nat × List DirEntry)) (d : Nat) (s : App)
    (hwf : WellFormed s.g_gifs) (hinv : QueueInv s) :
    (¬ (Msg.WM_COMMAND folder d).loads ∧ onImport folder d s = none) ∨
    ∃ s1, onImport folder d s = some s1 ∧ WellFormed s1.g_gifs ∧ QueueInv s1 := by
  unfold onImport
  cases folder with
  | none => exact Or.inr ⟨_, rfl, hwf, queueInv_same s _ rfl rfl rfl hinv⟩
  | some pe =>
    obtain ⟨folderPath, entries⟩ := pe
    dsimp only
    rcases LoadGifsFromFolder_queueInv folderPath entries (CleanupGifs s)
        (by intro g hg; simp [CleanupGifs] at hg) rfl with
      ⟨hle, hl⟩ | ⟨s1, ok, hl, hwf1, hinv1⟩
    · left
      refine ⟨?_, by rw [hl]⟩
      intro hloads
      obtain ⟨gifs1, hsome⟩ := loadEntries_some folderPath entries (CleanupGifs s).g_gifs hloads
      rw [hle] at hsome
      exact absurd hsome (by simp)
    · right
      rw [hl]
      cases ok with
      | false => exact ⟨_, rfl, hwf1, queueInv_same s1 _ rfl rfl rfl hinv1⟩
      | true =>
        dsimp only
        by_cases hm : s1.g_appMode = AppMode.AUTOMATIC
        · rw [if_pos hm]
          obtain ⟨a, ha⟩ := StartStateTimer_eq d
            { s1 with g_currentGifIndex := 0, g_appState := AppState.STATE_WAIT } hwf1
          rw [ha]
          exact ⟨_, rfl, hwf1, queueInv_same s1 _ rfl rfl rfl hinv1⟩
        · rw [if_neg hm]
          exact ⟨_, rfl, hwf1, queueInv_same s1 _ rfl rfl rfl hinv1⟩

theorem WindowProc_queueInv (m : Msg) (s : App) (hwf : WellFormed s.g_gifs)
    (hinv : QueueInv s) :
    (¬ m.loads ∧ WindowProc m s = none) ∨
    ∃ s1, WindowProc m s = some s1 ∧ WellFormed s1.g_gifs ∧ QueueInv s1 := by
  cases m with
  | WM_TIMER w r =>
    right
    simp only [WindowProc, onTimer]
    by_cases h1 : w = TIMER_ID ∧ s.g_appMode = AppMode.AUTOMATIC ∧ s.g_isPickMode = false
    · rw [if_pos h1]
      exact UpdateAppState_queueInv r s hwf hinv
    · rw [if_neg h1]
      by_cases h2 : w = ANIMATION_TIMER_ID ∧ s.g_frameQueue ≠ []
      · rw [if_pos h2]
        have hlt : (s.g_currentFrameIndex + 1) % s.g_frameQueue.length < s.g_frameQueue.length :=
          Nat.mod_lt _ (List.length_pos.mpr h2.2)
        rw [List.getElem?_eq_getElem hlt]
        refine ⟨_, rfl, hwf, ?_⟩
        intro hne
        exact ⟨hlt, (hinv hne).2⟩
      · rw [if_neg h2]
        exact ⟨s, rfl, hwf, hinv⟩
  | WM_KEYDOWN w d =>
    right
    simp only [WindowProc, onKeyDown]
    by_cases hM : w = KEY_M
    · rw [if_pos hM]
      exact ⟨_, rfl, hwf, queueInv_same s _ rfl rfl rfl hinv⟩
    · rw [if_neg hM]
      by_cases hA : w = KEY_A
      · rw [if_pos hA]
        by_cases hmode : s.g_appMode = AppMode.AUTOMATIC
        · simp only [hmode, if_true]
          rw [if_neg (by decide)]
          exact ⟨_, rfl, hwf, queueInv_same s _ rfl rfl rfl hinv⟩
        · simp only [hmode, if_false, if_true]
          obtain ⟨a, ha⟩ := StartStateTimer_eq d { s with g_appMode := AppMode.AUTOMATIC } hwf
          exact ⟨_, ha, hwf, queueInv_same s _ rfl rfl rfl hinv⟩
      · rw [if_neg hA]
        by_cases hS : w = VK_SPACE
        · rw [if_pos hS]
          by_cases hc : s.g_appMode = AppMode.MANUAL ∧ s.g_gifs ≠ []
          · rw [if_pos hc]
            exact SwitchToNextGif_queueInv s hwf hinv
          · rw [if_neg hc]
            exact ⟨s, rfl, hwf, hinv⟩
        · rw [if_neg hS]
          exact ⟨s, rfl, hwf, hinv⟩
  | WM_MOUSEMOVE x y =>
    right
    simp only [WindowProc, onMouseMove]
    split_ifs
    · exact ⟨_, rfl, hwf, queueInv_same s _ rfl rfl rfl hinv⟩
    · exact ⟨_, rfl, hwf, hinv⟩
  | WM_LBUTTONDOWN =>
    right
    simp only [WindowProc]
    by_cases hne : s.g_gifs ≠ []
    · rcases onLButtonDown_cases s hne hwf with ⟨i, g, a, _, hg, _, hq⟩ | ⟨_, hq⟩
      · exact ⟨_, hq, hwf, queueInv_rebuilt _ g (List.getElem?_mem hg) rfl rfl⟩
      · exact ⟨_, hq, hwf, queueInv_same s _ rfl rfl rfl hinv⟩
    · exact ⟨s, by unfold onLButtonDown; rw [if_neg hne], hwf, hinv⟩
  | WM_LBUTTONUP d =>
    right
    simp only [WindowProc]
    by_cases hpick : s.g_isPickMode = true
    · rcases onLButtonUp_cases d s hpick hwf with ⟨i, g, st, a, _, hg, _, hq⟩ | ⟨_, st, a, hq⟩
      · exact ⟨_, hq, hwf, queueInv_rebuilt _ g (List.getElem?_mem hg) rfl rfl⟩
      · exact ⟨_, hq, hwf, queueInv_same s _ rfl rfl rfl hinv⟩
    · exact ⟨s, by unfold onLButtonUp; rw [if_neg hpick], hwf, hinv⟩
  | WM_COMMAND folder d =>
    simp only [WindowProc]
    exact onImport_queueInv folder d s hwf hinv

theorem run_queueInv :
    ∀ (ms : List Msg) (s s1 : App), WellFormed s.g_gifs → QueueInv s →
      run ms s = some s1 → WellFormed s1.g_gifs ∧ QueueInv s1 := by
  intro ms
  induction ms with
  | nil =>
    intro s s1 hwf hinv hrun
    simp only [run, Option.some.injEq] at hrun
    subst hrun
    exact ⟨hwf, hinv⟩
  | cons m rest ih =>
    intro s s1 hwf hinv hrun
    rcases WindowProc_queueInv m s hwf hinv with ⟨_, hnone⟩ | ⟨s2, h2, hwf2, hinv2⟩
    · simp only [run, hnone] at hrun
      exact absurd hrun (by simp)
    · simp only [run, h2] at hrun
      exact ih s2 s1 hwf2 hinv2 hrun

/-- When every imported folder holds only directories and files with frame delays, the
message loop handles every message: no handler runs into undefined behaviour. -/
theorem run_returns :
    ∀ (ms : List Msg) (s : App), (∀ m ∈ ms, m.loads) → WellFormed s.g_gifs → QueueInv s →
      ∃ s1, run ms s = some s1 ∧ WellFormed s1.g_gifs ∧ QueueInv s1 := by
  intro ms
  induction ms with
  | nil => intro s _ hwf hinv; exact ⟨s, rfl, hwf, hinv⟩
  | cons m rest ih =>
    intro s hloads hwf hinv
    rcases WindowProc_queueInv m s hwf hinv with ⟨hbad, _⟩ | ⟨s2, h2, hwf2, hinv2⟩
    · exact absurd (hloads m (List.mem_cons_self _ _)) hbad
    · obtain ⟨s3, h3, hwf3, hinv3⟩ :=
        ih s2 (fun m1 hm1 => hloads m1 (List.mem_cons_of_mem _ hm1)) hwf2 hinv2
      exact ⟨s3, by simp only [run, h2, h3], hwf3, hinv3⟩

theorem run_initial_returns (ms : List Msg) (screenWidth screenHeight : Int)
    (hloads : ∀ m ∈ ms, m.loads) :
    ∃ s1, run ms (App.initial screenWidth screenHeight) = some s1 ∧ WellFormed s1.g_gifs :=
  let ⟨s1, h1, hwf1, _⟩ := run_returns ms (App.initial screenWidth screenHeight) hloads
    (by intro g hg; simp [App.initial] at hg) (queueInv_of_empty _ rfl)
  ⟨s1, h1, hwf1⟩

/-- C15: in every state `s` reached from the state at program start by a sequence of
messages (imports, fine ticks, automatic ticks, manual cycle requests, presses,
releases, and the other keys and mouse moves), if the frame queue is non-empty, the
cursor `g_currentFrameIndex` is strictly less than the queue length and all entries of
the queue hold the image of one and the same asset of the catalog. -/
theorem cursor_valid_and_single_asset (ms : List Msg) (screenWidth screenHeight : Int)
    (s : App) (hrun : run ms (App.initial screenWidth screenHeight) = some s) :
    s.g_frameQueue ≠ [] →
      s.g_currentFrameIndex < s.g_frameQueue.length ∧
      ∃ g ∈ s.g_gifs, ∀ f ∈ s.g_frameQueue, f.image = g.animation.image :=
  (run_queueInv ms (App.initial screenWidth screenHeight) s
    (by intro g hg; simp [App.initial] at hg) (queueInv_of_empty _ rfl) hrun).2

/-- C15 for the state reached by an import of four files, the switch to manual mode, two
manual cycle requests, a press, two fine ticks and a release. -/
theorem cursor_valid_and_single_asset_witness :
    ∃ s, run (exCycleToMisc ++ [Msg.WM_LBUTTONDOWN, Msg.WM_TIMER ANIMATION_TIMER_ID exDraws,
        Msg.WM_TIMER ANIMATION_TIMER_ID exDraws, Msg.WM_LBUTTONUP 5000])
        (App.initial 1920 1080) = some s ∧
      s.g_frameQueue ≠ [] ∧
      s.g_currentFrameIndex < s.g_frameQueue.length ∧
      ∃ g ∈ s.g_gifs, ∀ f ∈ s.g_frameQueue, f.image = g.animation.image := by
  cases hrun : run (exCycleToMisc ++ [Msg.WM_LBUTTONDOWN,
      Msg.WM_TIMER ANIMATION_TIMER_ID exDraws, Msg.WM_TIMER ANIMATION_TIMER_ID exDraws,
      Msg.WM_LBUTTONUP 5000]) (App.initial 1920 1080) with
  | none =>
    have hsome : (run (exCycleToMisc ++ [Msg.WM_LBUTTONDOWN,
        Msg.WM_TIMER ANIMATION_TIMER_ID exDraws, Msg.WM_TIMER ANIMATION_TIMER_ID exDraws,
        Msg.WM_LBUTTONUP 5000]) (App.initial 1920 1080)).isSome = true := by decide
    rw [hrun] at hsome
    exact absurd hsome (by decide)
  | some s =>
    have hne : (run (exCycleToMisc ++ [Msg.WM_LBUTTONDOWN,
        Msg.WM_TIMER ANIMATION_TIMER_ID exDraws, Msg.WM_TIMER ANIMATION_TIMER_ID exDraws,
        Msg.WM_LBUTTONUP 5000]) (App.initial 1920 1080)).map
        (fun s => decide (s.g_frameQueue ≠ [])) = some true := by decide
    rw [hrun] at hne
    have hq : s.g_frameQueue ≠ [] := by simpa using hne
    exact ⟨s, rfl, hq,
      cursor_valid_and_single_asset _ 1920 1080 s hrun hq⟩

end ChibiViewer
